import Mathlib

/-!
Verification of the TaxHacker bank-statement import core.

This file shallowly embeds the bank-statement ingestion code
(`lib/bank-statement-utils.ts`, `lib/parsers/csv-parser.ts`,
`lib/parsers/pdf-parser.ts`, `app/(app)/bank-statements/actions.ts`) in
Lean 4 and proves the stated properties about it.

Modelling conventions:
* JavaScript numbers that the code only ever uses as integer cent amounts
  are modelled as `Option ℤ`, with `none` standing for a non-finite value
  (`NaN` or an infinity); all other numeric computation is modelled over
  `ℚ` (the idealised real-number semantics of JS arithmetic).
* Fallible operations are modelled with `Except`/`Option`.
* Engine-defined behaviour (the MD5 digest, the generic `new Date(...)`
  string parser, fresh UUID generation) is passed in as an explicit
  function parameter, so every theorem quantifies over it.
-/

namespace TaxHacker

/-- JS `\s` whitespace class (the characters relevant to this code base). -/
def jsWhitespace (c : Char) : Bool :=
  c = ' ' ∨ c = '\t' ∨ c = '\n' ∨ c = '\r' ∨ c = '\x0b' ∨ c = '\x0c' ∨ c = ' '

/-- JS `String.prototype.trim`: drop whitespace from both ends. -/
def jsTrim (s : String) : String :=
  String.mk (((s.data.dropWhile jsWhitespace).reverse.dropWhile jsWhitespace).reverse)

/-- JS `replace(/\s+/g, " ")`: each maximal whitespace run becomes a
single space.  The boolean argument records whether the previous
character was whitespace (so the run emits only one space). -/
def collapseWsAux : Bool → List Char → List Char
  | _, [] => []
  | prevWs, c :: rest =>
    if jsWhitespace c then
      if prevWs then collapseWsAux true rest
      else ' ' :: collapseWsAux true rest
    else c :: collapseWsAux false rest

def collapseWhitespace (cs : List Char) : List Char := collapseWsAux false cs

/-- JS `toLowerCase`, character by character. -/
def strToLower (s : String) : String := String.mk (s.data.map Char.toLower)

/-- `normalizeDescription` from `lib/bank-statement-utils.ts`:
`description.toLowerCase().replace(/\s+/g, " ").trim()`. -/
def normalizeDescription (s : String) : String :=
  jsTrim (String.mk (collapseWhitespace (strToLower s).data))

/-- JS template interpolation of the (possibly non-finite) amount. -/
def numToString : Option ℤ → String
  | none => "NaN"
  | some n => toString n

/-- `generateTransactionHash` from `lib/bank-statement-utils.ts`:
MD5 of `` `${date.split("T")[0]}|${amount}|${normalized}` ``.  The digest
itself is engine code, passed in as `md5`. -/
def generateTransactionHash (md5 : String → String)
    (date : String) (amount : Option ℤ) (description : String) : String :=
  let dateStr := String.mk (date.data.takeWhile (· ≠ 'T'))
  md5 (dateStr ++ "|" ++ numToString amount ++ "|" ++ normalizeDescription description)

/-! ## Amount parsing (`parseAmount`) -/

inductive TxType where
  | debit
  | credit
deriving DecidableEq, Repr

/-- Leading run of decimal digits, and the rest. -/
def splitDigits (cs : List Char) : List Char × List Char :=
  (cs.takeWhile Char.isDigit, cs.dropWhile Char.isDigit)

/-- Numeric value of a digit string (base 10). -/
def digitsVal (ds : List Char) : ℕ :=
  ds.foldl (fun n c => 10 * n + (c.toNat - '0'.toNat)) 0

/-- The test `/,\d{2}$/.test(cleaned)`: the string ends in a comma
followed by exactly two digits. -/
def eurTest (cs : List Char) : Bool :=
  match cs.reverse with
  | b :: a :: c :: _ => c == ',' && a.isDigit && b.isDigit
  | _ => false

/-- JS `replace(",", ".")`: only the first comma is replaced. -/
def replaceFirstComma : List Char → List Char
  | [] => []
  | c :: rest => if c = ',' then '.' :: rest else c :: replaceFirstComma rest

/-- A finite JS number arising from a decimal literal, represented
exactly: the pair `(m, e)` stands for the value `m · 10^e`.  (ℚ
arithmetic is proof-irreducible in this toolchain, so the parsed value
is kept in this exact decimal form; `decimalValue` gives its meaning.) -/
def decimalValue (m e : ℤ) : ℚ := (m : ℚ) * (10 : ℚ) ^ e

/-- Exponent suffix of a JS float literal: `e`/`E`, optional sign, digits.
An unparseable exponent suffix is simply not consumed (`parseFloat`
takes the longest valid prefix). -/
def applyExp (me : ℤ × ℤ) (cs : List Char) : ℤ × ℤ :=
  match cs with
  | c :: rest =>
    if c = 'e' ∨ c = 'E' then
      let (sign, rest') : ℤ × List Char :=
        match rest with
        | '-' :: r => (-1, r)
        | '+' :: r => (1, r)
        | _ => (1, rest)
      let (ds, _) := splitDigits rest'
      if ds = [] then me else (me.1, me.2 + sign * (digitsVal ds : ℤ))
    else me
  | [] => me

/-- `parseFloat`: longest valid decimal-literal prefix, as an exact
decimal `(mantissa, exponent)`; `none` when the result is not a finite
number (`NaN`; `Infinity` literals, irrelevant to amount strings, are
also mapped to `none`). -/
def jsParseFloat (cs0 : List Char) : Option (ℤ × ℤ) :=
  let cs1 := cs0.dropWhile jsWhitespace
  let (sign, cs2) : ℤ × List Char :=
    match cs1 with
    | '-' :: r => (-1, r)
    | '+' :: r => (1, r)
    | _ => (1, cs1)
  let (intDigits, cs3) := splitDigits cs2
  match intDigits with
  | [] =>
    match cs3 with
    | '.' :: cs4 =>
      let (fracDigits, cs5) := splitDigits cs4
      if fracDigits = [] then none
      else some (applyExp (sign * (digitsVal fracDigits : ℤ), -(fracDigits.length : ℤ)) cs5)
    | _ => none
  | _ =>
    match cs3 with
    | '.' :: cs4 =>
      let (fracDigits, cs5) := splitDigits cs4
      some (applyExp
        (sign * ((digitsVal intDigits : ℤ) * (10 : ℤ) ^ fracDigits.length +
          (digitsVal fracDigits : ℤ)), -(fracDigits.length : ℤ)) cs5)
    | _ => some (applyExp ((sign * (digitsVal intDigits : ℤ)), 0) cs3)

/-- JS `Math.round`: round half towards positive infinity. -/
def jsRound (q : ℚ) : ℤ := ⌊q + 1 / 2⌋

/-- `Math.round` evaluated exactly on a decimal `(m, e)`:
`⌊m·10^e + 1/2⌋`, computed over ℤ. -/
def jsRoundDec (m e : ℤ) : ℤ :=
  if 0 ≤ e then m * 10 ^ e.toNat
  else (2 * m + 10 ^ (-e).toNat).fdiv (2 * 10 ^ (-e).toNat)

/-- Currency symbols and whitespace removed by `parseAmount`
(`replace(/[€$£¥\s]/g, "")`). -/
def currencyOrWs (c : Char) : Bool :=
  c = '€' ∨ c = '$' ∨ c = '£' ∨ c = '¥' ∨ jsWhitespace c

/-- The cleaning step of `parseAmount`: remove currency symbols and
whitespace, then trim. -/
def amountCleaned (amountStr : String) : String :=
  jsTrim (String.mk (amountStr.data.filter (fun c => !currencyOrWs c)))

/-- Negativity detection of `parseAmount`: a leading `-` or an opening
parenthesis on the cleaned string. -/
def amountIsNegative (amountStr : String) : Bool :=
  match (amountCleaned amountStr).data with
  | c :: _ => c = '-' ∨ c = '('
  | [] => false

/-- `parseAmount` from `lib/bank-statement-utils.ts`.  Returns the amount
in cents (`none` models a `NaN` amount) and the debit/credit type. -/
def parseAmount (amountStr : String) (defaultType : TxType := .debit) :
    Option ℤ × TxType :=
  let isNegative : Bool := amountIsNegative amountStr
  let cleaned1 := (amountCleaned amountStr).data.filter (fun c => !(c = '(' ∨ c = ')' ∨ c = '-'))
  let cleaned2 :=
    if eurTest cleaned1 then
      -- European: dots are thousands, comma is decimal
      replaceFirstComma (cleaned1.filter (· ≠ '.'))
    else
      -- US: commas are thousands, dot is decimal
      cleaned1.filter (· ≠ ',')
  -- Math.round(parseFloat(cleaned) * 100), multiplication by 100 being
  -- a shift of the decimal exponent by 2
  let value : Option ℤ := (jsParseFloat cleaned2).map (fun me => jsRoundDec me.1 (me.2 + 2))
  let type : TxType :=
    if isNegative then .debit
    else if (match value with | some v => decide (0 < v) | none => false) && defaultType = .debit then .debit
    else defaultType
  (value.map (fun v => |v|), type)

/-! ## Date parsing (`parseDate`) -/

/-- The test `/^\d{4}-\d{2}-\d{2}/`: ISO `YYYY-MM-DD` prefix. -/
def isoTest (cs : List Char) : Bool :=
  match cs with
  | a :: b :: c :: d :: '-' :: e :: f :: '-' :: g :: h :: _ =>
    a.isDigit && b.isDigit && c.isDigit && d.isDigit &&
      e.isDigit && f.isDigit && g.isDigit && h.isDigit
  | _ => false

/-- Full match of the slash-date regex (one or two digits, a slash or
dash, one or two digits, a slash or dash, four digits, end of string),
returning the three captured groups. -/
def slashMatch (cs : List Char) : Option (List Char × List Char × List Char) :=
  let d1 := cs.takeWhile Char.isDigit
  if d1.length = 0 ∨ 2 < d1.length then none
  else
    match cs.dropWhile Char.isDigit with
    | s1 :: r2 =>
      if s1 = '/' ∨ s1 = '-' then
        let d2 := r2.takeWhile Char.isDigit
        if d2.length = 0 ∨ 2 < d2.length then none
        else
          match r2.dropWhile Char.isDigit with
          | s2 :: r4 =>
            if s2 = '/' ∨ s2 = '-' then
              let d3 := r4.takeWhile Char.isDigit
              if d3.length = 4 ∧ r4.dropWhile Char.isDigit = [] then some (d1, d2, d3)
              else none
            else none
          | [] => none
      else none
    | [] => none

/-- Full match of the dot-date regex (one or two digits, a dot, one or
two digits, a dot, four digits, end of string). -/
def dotMatch (cs : List Char) : Option (List Char × List Char × List Char) :=
  let d1 := cs.takeWhile Char.isDigit
  if d1.length = 0 ∨ 2 < d1.length then none
  else
    match cs.dropWhile Char.isDigit with
    | '.' :: r2 =>
      let d2 := r2.takeWhile Char.isDigit
      if d2.length = 0 ∨ 2 < d2.length then none
      else
        match r2.dropWhile Char.isDigit with
        | '.' :: r4 =>
          let d3 := r4.takeWhile Char.isDigit
          if d3.length = 4 ∧ r4.dropWhile Char.isDigit = [] then some (d1, d2, d3)
          else none
        | _ => none
    | _ => none

/-- `n.toString().padStart(2, "0")` for a parsed day/month number. -/
def pad2Nat (n : ℕ) : String :=
  if n < 10 then "0" ++ toString n else toString n

/-- `s.padStart(2, "0")` for a captured 1–2 digit group. -/
def pad2Str (s : List Char) : String :=
  if s.length < 2 then "0" ++ String.mk s else String.mk s

/-- `parseDate` from `lib/bank-statement-utils.ts`.  The last-resort
`new Date(cleaned)` engine parser is passed in as `fallback` (returning
the `toISOString().slice(0, 10)` value, or `none` for an invalid date). -/
def parseDate (fallback : String → Option String) (dateStr : String)
    (preferEuropean : Bool := true) : Except String String :=
  let cleaned := jsTrim dateStr
  if isoTest cleaned.data then .ok (String.mk (cleaned.data.take 10))
  else
    match slashMatch cleaned.data with
    | some (first, second, year) =>
      let firstNum := digitsVal first
      let secondNum := digitsVal second
      -- If first > 12 it must be the day; if second > 12 it must be the
      -- day; otherwise the European/US preference decides.
      let md : ℕ × ℕ :=
        if 12 < firstNum then (secondNum, firstNum)
        else if 12 < secondNum then (firstNum, secondNum)
        else if preferEuropean then (secondNum, firstNum)
        else (firstNum, secondNum)
      .ok (String.mk year ++ "-" ++ pad2Nat md.1 ++ "-" ++ pad2Nat md.2)
    | none =>
      match dotMatch cleaned.data with
      | some (day, month, year) =>
        .ok (String.mk year ++ "-" ++ pad2Str month ++ "-" ++ pad2Str day)
      | none =>
        match fallback cleaned with
        | some iso => .ok iso
        | none => .error ("Unable to parse date: " ++ dateStr)

/-! ## Delimiter detection (`detectDelimiter`, `lib/parsers/csv-parser.ts`) -/

def COMMON_DELIMITERS : List Char := [',', ';', '\t', '|']

/-- JS `String.prototype.split` with a one-character separator. -/
def splitOnChar (d : Char) : List Char → List (List Char)
  | [] => [[]]
  | c :: rest =>
    if c = d then [] :: splitOnChar d rest
    else
      match splitOnChar d rest with
      | [] => [[c]]
      | p :: ps => (c :: p) :: ps

/-- `line.split(delimiter).length` for a one-character delimiter. -/
def jsSplitLen (line : String) (d : Char) : ℕ :=
  (splitOnChar d line.data).length

/-- The first ten lines of the file, as sampled by `detectDelimiter`. -/
def linesOf (content : String) : List String :=
  ((splitOnChar '\n' content.data).map String.mk).take 10

/-- Score of one candidate delimiter over the sampled lines: `some avg`
when every line splits into the same column count `> 1`, else `none`. -/
def delimScore (lines : List String) (d : Char) : Option ℚ :=
  let counts := lines.map (fun l => jsSplitLen l d)
  match counts with
  | [] => none
  | c0 :: _ =>
    let isConsistent := counts.all (fun c => c == c0 && decide (1 < c))
    let avgColumns : ℚ := (counts.sum : ℚ) / (counts.length : ℚ)
    if isConsistent ∧ 1 < avgColumns then some avgColumns else none

/-- `entries.sort((a, b) => b[1] - a[1])[0]`: a stable descending sort
followed by taking the head keeps the earliest entry of maximal score. -/
def pickBest (e : Char × ℚ) (rest : List (Char × ℚ)) : Char × ℚ :=
  rest.foldl (fun best x => if best.2 < x.2 then x else best) e

def pickDelim : List (Char × ℚ) → Char
  | [] => ','
  | e :: rest => (pickBest e rest).1

/-- `detectDelimiter` from `lib/parsers/csv-parser.ts`. -/
def detectDelimiter (content : String) : Char :=
  pickDelim (COMMON_DELIMITERS.filterMap
    (fun d => (delimScore (linesOf content) d).map (fun s => (d, s))))

/-- The consistency check of `delimScore`, separated out: every sampled
line splits into the same column count, greater than one. -/
def delimConsistent (lines : List String) (d : Char) : Bool :=
  match lines.map (fun l => jsSplitLen l d) with
  | [] => false
  | c0 :: _ => (lines.map (fun l => jsSplitLen l d)).all (fun c => c == c0 && decide (1 < c))

/-- The common column count of the sampled lines for a delimiter. -/
def colCount (lines : List String) (d : Char) : ℕ :=
  (lines.map (fun l => jsSplitLen l d)).headD 0

/-! ## Data model (`lib/parsers/types.ts`) -/

/-- A transaction extracted from a bank statement (pre-import). -/
structure ExtractedTransaction where
  id : String
  date : String
  description : String
  /-- Amount in cents; `none` models a non-finite JS number. -/
  amount : Option ℤ
  type : TxType
  currency : String
  confidence : ℚ
  rawLine : Option String
  edited : Bool
  selected : Bool
  hash : String
  isDuplicate : Bool
  duplicateOf : Option String
deriving DecidableEq, Repr

structure MatchSuggestion where
  transactionId : String
  transactionName : String
  confidence : ℚ
deriving DecidableEq, Repr

structure ExtractedSummary where
  totalDebits : Option ℤ
  totalCredits : Option ℤ
  netAmount : Option ℤ
  transactionCount : ℕ
  dateStart : String
  dateEnd : String
deriving DecidableEq, Repr

/-- A CSV column reference: a header-name string or a numeric index. -/
inductive ColRef where
  | byName (name : String)
  | byIdx (idx : ℕ)
deriving DecidableEq, Repr

structure CSVColumnMapping where
  dateColumn : ColRef
  descriptionColumn : ColRef
  amountColumn : ColRef
  typeColumn : Option ColRef
  currencyColumn : Option ColRef
deriving DecidableEq, Repr

structure ParsingMetadata where
  format : String
  detectedDelimiter : Option String
  detectedDateFormat : Option String
  columnMapping : Option CSVColumnMapping
deriving DecidableEq, Repr

structure ExtractedData where
  transactions : List ExtractedTransaction
  summary : ExtractedSummary
  parsingMetadata : ParsingMetadata
deriving DecidableEq, Repr

/-! ## Summary statistics (`calculateSummary`) -/

/-- JS `+` on the cent amounts: a non-finite operand contaminates the sum. -/
def optAdd : Option ℤ → Option ℤ → Option ℤ
  | some a, some b => some (a + b)
  | _, _ => none

def optSub : Option ℤ → Option ℤ → Option ℤ
  | some a, some b => some (a - b)
  | _, _ => none

/-- JS `<` on strings (code-unit lexicographic order; all dates here are
ASCII). -/
def jsStrLt : List Char → List Char → Bool
  | [], [] => false
  | [], _ :: _ => true
  | _ :: _, [] => false
  | a :: as, b :: bs =>
    if a.toNat < b.toNat then true
    else if b.toNat < a.toNat then false
    else jsStrLt as bs

/-- `calculateSummary` from `lib/bank-statement-utils.ts`. -/
def calculateSummary (transactions : List ExtractedTransaction) : ExtractedSummary :=
  let r := transactions.foldl
    (fun (acc : Option ℤ × Option ℤ × String × String) tx =>
      let totalDebits := if tx.type = .debit then optAdd acc.1 tx.amount else acc.1
      let totalCredits := if tx.type = .debit then acc.2.1 else optAdd acc.2.1 tx.amount
      let minDate := if acc.2.2.1 = "" ∨ jsStrLt tx.date.data acc.2.2.1.data then tx.date else acc.2.2.1
      let maxDate := if acc.2.2.2 = "" ∨ jsStrLt acc.2.2.2.data tx.date.data then tx.date else acc.2.2.2
      (totalDebits, totalCredits, minDate, maxDate))
    (some 0, some 0, "", "")
  { totalDebits := r.1, totalCredits := r.2.1, netAmount := optSub r.2.1 r.1,
    transactionCount := transactions.length, dateStart := r.2.2.1, dateEnd := r.2.2.2 }

/-! ## CSV pipeline (`lib/parsers/csv-parser.ts`) -/

/-- `getColumnValue`: cell lookup by index (with trim); a string column
identifier always yields the empty string (the code expects strings to
have been converted to indices beforehand). -/
def getColumnValue (row : List String) (column : ColRef) : String :=
  match column with
  | .byIdx i => jsTrim (row.getD i "")
  | .byName _ => ""

/-- JS truthiness of an optional column reference (`mapping.typeColumn ?`):
`undefined`, `""` and `0` are all falsy. -/
def colRefTruthy : Option ColRef → Bool
  | none => false
  | some (.byName s) => !(s == "")
  | some (.byIdx i) => !(i == 0)

/-- JS substring containment (`haystack.includes(sub)`). -/
def includesAux : List Char → List Char → Bool
  | h, p => if p.isPrefixOf h then true else
      match h with
      | [] => false
      | _ :: t => includesAux t p

def strIncludes (h sub : String) : Bool := includesAux h.data sub.data

def isOctDigit (c : Char) : Bool := '0' ≤ c ∧ c ≤ '7'
def isBinDigit (c : Char) : Bool := c = '0' ∨ c = '1'
def isHexDigitChar (c : Char) : Bool :=
  c.isDigit ∨ ('a' ≤ c ∧ c ≤ 'f') ∨ ('A' ≤ c ∧ c ≤ 'F')

/-- Exponent part of a JS numeric literal, which must consume the whole
remaining string (`Number`, unlike `parseFloat`, matches entirely). -/
def numExpOk : List Char → Bool
  | [] => true
  | e :: rest =>
    (e = 'e' ∨ e = 'E') ∧
      (let rest' := match rest with
        | '+' :: r => r
        | '-' :: r => r
        | _ => rest
      let (ds, r2) := splitDigits rest'
      ds ≠ [] ∧ r2 = [])

/-- Decimal mantissa (with optional fraction and exponent) consuming the
whole string. -/
def numMantissaOk (cs : List Char) : Bool :=
  let (ints, r1) := splitDigits cs
  match r1 with
  | '.' :: r2 =>
    let (fracs, r3) := splitDigits r2
    (ints ≠ [] ∨ fracs ≠ []) ∧ numExpOk r3
  | _ => ints ≠ [] ∧ numExpOk r1

def numSignedOk (cs : List Char) : Bool :=
  let cs' := match cs with
    | '+' :: r => r
    | '-' :: r => r
    | _ => cs
  cs' = "Infinity".data ∨ numMantissaOk cs'

/-- `!isNaN(Number(s))`: whether JS `Number(s)` yields a number (the
empty string yields `0`, so it counts as defined). -/
def jsNumberDefined (s : String) : Bool :=
  let cs := (jsTrim s).data
  match cs with
  | [] => true
  | '0' :: x :: rest =>
    if x = 'x' ∨ x = 'X' then rest ≠ [] ∧ rest.all isHexDigitChar
    else if x = 'o' ∨ x = 'O' then rest ≠ [] ∧ rest.all isOctDigit
    else if x = 'b' ∨ x = 'B' then rest ≠ [] ∧ rest.all isBinDigit
    else numSignedOk cs
  | _ => numSignedOk cs

def removeCommaDots (s : String) : String :=
  String.mk (s.data.filter (fun c => !(c = ',' ∨ c = '.')))

/-- The header heuristic applied to one cell:
`trimmed.length > 0 && isNaN(Number(trimmed.replace(/[,\.]/g, "")))`. -/
def looksLikeHeaderCell (cell : String) : Bool :=
  let trimmed := jsTrim cell
  0 < trimmed.length ∧ !jsNumberDefined (removeCommaDots trimmed)

def datePatterns : List String :=
  ["date", "datum", "data", "transaction date", "value date", "booking date"]
def descPatterns : List String :=
  ["description", "reference", "details", "narrative", "memo", "text", "libelle", "bezeichnung"]
def amountPatterns : List String :=
  ["amount", "value", "sum", "total", "betrag", "montant"]
def typePatterns : List String :=
  ["type", "debit/credit", "d/c", "direction", "side"]
def currencyPatterns : List String :=
  ["currency", "ccy", "curr", "wahrung", "devise"]

/-- First header index containing any of the given patterns. -/
def firstMatchIdx (lowerHeaders : List String) (pats : List String) : Option ℕ :=
  lowerHeaders.findIdx? (fun h => pats.any (fun p => strIncludes h p))

/-- `autoDetectColumnMapping` from `lib/parsers/csv-parser.ts`.  (The
`creditIdx` computed by the source is never used there.) -/
def autoDetectColumnMapping (headers : List String) : Option CSVColumnMapping :=
  let lowerHeaders := headers.map (fun h => jsTrim (strToLower h))
  let dateColumn := firstMatchIdx lowerHeaders datePatterns
  let descriptionColumn := firstMatchIdx lowerHeaders descPatterns
  let amountColumn0 := firstMatchIdx lowerHeaders amountPatterns
  let typeColumn := firstMatchIdx lowerHeaders typePatterns
  let currencyColumn := firstMatchIdx lowerHeaders currencyPatterns
  let debitIdx := lowerHeaders.findIdx?
    (fun h => strIncludes h "debit" || strIncludes h "withdrawal")
  if dateColumn = none ∨ (amountColumn0 = none ∧ debitIdx = none) then none
  else
    match dateColumn, (match amountColumn0 with | some a => some a | none => debitIdx) with
    | some dc, some ac =>
      some { dateColumn := .byIdx dc,
             descriptionColumn := .byIdx (descriptionColumn.getD 1),
             amountColumn := .byIdx ac,
             typeColumn := typeColumn.map .byIdx,
             currencyColumn := currencyColumn.map .byIdx }
    | _, _ => none

/-- One iteration of the `parseCSV` row loop: `none` models both the
explicit `continue`s and a caught per-row exception. -/
def parseCSVRow (freshId : ℕ → String) (md5 : String → String)
    (dateFallback : String → Option String) (cm : CSVColumnMapping)
    (defaultCurrency : String) (delimiter : Char) (idx : ℕ) (row : List String) :
    Option ExtractedTransaction :=
  if row.all (fun cell => jsTrim cell == "") then none
  else
    let dateStr := getColumnValue row cm.dateColumn
    let description := getColumnValue row cm.descriptionColumn
    let amountStr := getColumnValue row cm.amountColumn
    let typeStr : Option String :=
      match cm.typeColumn with
      | some c => if colRefTruthy (some c) then some (getColumnValue row c) else none
      | none => none
    let currency : String :=
      match cm.currencyColumn with
      | some c => if colRefTruthy (some c) then getColumnValue row c else defaultCurrency
      | none => defaultCurrency
    if dateStr = "" ∨ amountStr = "" then none
    else
      match parseDate dateFallback dateStr with
      | .error _ => none
      | .ok date =>
        let pa := parseAmount amountStr
        let type : TxType :=
          match typeStr with
          | some ts =>
            if ts = "" then pa.2
            else
              let lowerType := strToLower ts
              if strIncludes lowerType "credit" ∨ lowerType = "c" ∨ lowerType = "cr" then .credit
              else if strIncludes lowerType "debit" ∨ lowerType = "d" ∨ lowerType = "db" then .debit
              else pa.2
          | none => pa.2
        let hash := generateTransactionHash md5 date pa.1 description
        some { id := freshId idx, date := date, description := description,
               amount := pa.1, type := type,
               currency := if currency = "" then defaultCurrency else currency,
               confidence := 1,
               rawLine := some (String.intercalate (String.singleton delimiter) row),
               edited := false, selected := true, hash := hash,
               isDuplicate := false, duplicateOf := none }

/-- Mapping resolution of `parseCSV`: an explicit mapping takes
precedence; otherwise auto-detection runs when headers were detected. -/
def resolveMapping (mapping : Option CSVColumnMapping) (hasHeaders : Bool)
    (headers : List String) : Option CSVColumnMapping :=
  match mapping with
  | some m => some m
  | none => if hasHeaders then autoDetectColumnMapping headers else none

/-- `parseCSV` from `lib/parsers/csv-parser.ts`.  `rows` is the output of
the `fast-csv` engine parse of the file content and `delimiter` the
result of `detectDelimiter` on it; fresh UUIDs and the MD5 digest are
passed in as functions. -/
def parseCSV (freshId : ℕ → String) (md5 : String → String)
    (dateFallback : String → Option String) (rows : List (List String))
    (delimiter : Char) (mapping : Option CSVColumnMapping)
    (defaultCurrency : String := "EUR") : Except String ExtractedData :=
  match rows with
  | [] => .error "CSV file is empty"
  | firstRow :: restRows =>
    let hasHeaders := firstRow.all looksLikeHeaderCell
    let headers := if hasHeaders then firstRow else []
    let dataRows := if hasHeaders then restRows else firstRow :: restRows
    match resolveMapping mapping hasHeaders headers with
    | none =>
      .error "Unable to auto-detect column mapping. Please provide manual column configuration."
    | some cm =>
      let transactions := dataRows.enum.filterMap
        (fun p => parseCSVRow freshId md5 dateFallback cm defaultCurrency delimiter p.1 p.2)
      if transactions = [] then .error "No valid transactions found in CSV file"
      else
        .ok { transactions := transactions,
              summary := calculateSummary transactions,
              parsingMetadata := { format := "csv",
                                   detectedDelimiter := some (String.singleton delimiter),
                                   detectedDateFormat := none,
                                   columnMapping := some cm } }

/-! ## AI (PDF) pipeline (`lib/parsers/pdf-parser.ts`) -/

/-- One transaction entry of the LLM's structured output. -/
structure LLMTransaction where
  date : String
  description : String
  amount : ℚ
  type : TxType
deriving DecidableEq, Repr

structure LLMOutput where
  bankName : Option String
  accountNumber : Option String
  currency : Option String
  transactions : List LLMTransaction
deriving DecidableEq, Repr

/-- `parsePDF` from `lib/parsers/pdf-parser.ts`, modelled from the point
where the engine work (page rendering, LLM request) has produced its
result: `previewCount` pages were rendered and `llmResponse` is the
provider's answer.  The bank-metadata attachment does not affect the
emitted transactions and is omitted. -/
def parsePDF (freshId : ℕ → String) (md5 : String → String)
    (previewCount : ℕ) (llmResponse : Except String LLMOutput)
    (defaultCurrency : String := "EUR") : Except String ExtractedData :=
  if previewCount = 0 then .error "Unable to generate previews from PDF"
  else
    match llmResponse with
    | .error e => .error e
    | .ok output =>
      if output.transactions = [] then .error "No transactions found in the bank statement"
      else
        let currency :=
          match output.currency with
          | some c => if c = "" then defaultCurrency else c
          | none => defaultCurrency
        let transactions : List ExtractedTransaction := output.transactions.enum.map
          (fun p =>
            -- Amount from the LLM might be in major units; convert to cents
            let amountInCents : ℤ := jsRound (p.2.amount * 100)
            let hash := generateTransactionHash md5 p.2.date (some amountInCents) p.2.description
            { id := freshId p.1, date := p.2.date, description := p.2.description,
              amount := some amountInCents, type := p.2.type, currency := currency,
              confidence := 9 / 10, rawLine := none, edited := false, selected := true,
              hash := hash, isDuplicate := false, duplicateOf := none })
        .ok { transactions := transactions,
              summary := calculateSummary transactions,
              parsingMetadata := { format := "pdf", detectedDelimiter := none,
                                   detectedDateFormat := some "YYYY-MM-DD",
                                   columnMapping := none } }

/-! ## Persisted transaction store and duplicate engine
(`lib/bank-statement-utils.ts`, Prisma `transaction` table) -/

/-- The persisted `Transaction` record (the fields this core touches).
`issuedAt` is a timestamp, modelled in days since the epoch over `ℚ`. -/
structure DBTransaction where
  id : String
  userId : String
  name : Option String
  description : Option String
  merchant : Option String
  total : Option ℤ
  currencyCode : Option String
  type : Option String
  issuedAt : Option ℚ
  sourceType : Option String
  sourceId : Option String
  transactionHash : Option String
  categoryCode : Option String
  projectCode : Option String
  linkedTransactionId : Option String
deriving DecidableEq, Repr

/-- JS truthiness of a nullable string. -/
def jsTruthyStr : Option String → Bool
  | some s => !(s == "")
  | none => false

/-- One iteration of the duplicate-map construction loop
(`duplicateMap.set(tx.transactionHash, tx.id)`, guarded by the
truthiness of the hash). -/
def dupMapStep (m : String → Option String) (t : DBTransaction) :
    String → Option String :=
  match t.transactionHash with
  | some h => if h = "" then m else fun h' => if h' == h then some t.id else m h'
  | none => m

/-- The query filter of the batch duplicate lookup. -/
def dupQueryFilter (userId : String) (hashes : List String) (t : DBTransaction) : Bool :=
  t.userId == userId &&
    (match t.transactionHash with
     | some h => hashes.contains h
     | none => false)

/-- `findDuplicateTransactions` (batch lookup): queries all of the user's
transactions whose hash is among `hashes` and builds a hash → id map,
later rows overwriting earlier ones. -/
def findDuplicateTransactions (db : List DBTransaction) (userId : String)
    (hashes : List String) : String → Option String :=
  (db.filter (dupQueryFilter userId hashes)).foldl dupMapStep (fun _ => none)

/-- `markDuplicates` from `lib/bank-statement-utils.ts`. -/
def markDuplicates (db : List DBTransaction) (userId : String)
    (transactions : List ExtractedTransaction) : List ExtractedTransaction :=
  let duplicates := findDuplicateTransactions db userId (transactions.map (·.hash))
  transactions.map (fun tx =>
    let duplicateOf := duplicates tx.hash
    { tx with isDuplicate := jsTruthyStr duplicateOf, duplicateOf := duplicateOf })

/-! ## Reconciliation matcher (`findMatchingInvoices`) -/

/-- JS `a || b` for a nullable string. -/
def jsOrString : Option String → String → String
  | some s, b => if s = "" then b else s
  | none, b => b

/-- The Prisma `where` clause of the candidate query: same user, exact
amount match, `issuedAt` within the ±7-day window, not already linked,
and an invoice/manual/absent source type. -/
def candidateFilter (userId : String) (amount : Option ℤ) (minDate maxDate : ℚ)
    (t : DBTransaction) : Bool :=
  t.userId == userId && t.total == amount &&
    (match t.issuedAt with
     | some d => decide (minDate ≤ d) && decide (d ≤ maxDate)
     | none => false) &&
    t.linkedTransactionId == none &&
    (t.sourceType == some "invoice" || t.sourceType == some "manual" ||
      t.sourceType == none)

/-- Whether the merchant-similarity boost applies: the candidate has a
non-empty merchant, the description is non-empty, and after
normalization one contains the other. -/
def merchantBoost (desc : String) (c : DBTransaction) : Bool :=
  match c.merchant with
  | some m =>
    if m ≠ "" ∧ desc ≠ "" then
      strIncludes (normalizeDescription desc) (normalizeDescription m) ||
        strIncludes (normalizeDescription m) (normalizeDescription desc)
    else false
  | none => false

/-- The confidence computation of `findMatchingInvoices` for a single
candidate: a 0.5 base, a date-closeness boost, a merchant-name boost,
capped at 1. -/
def scoreCandidate (transactionDate : ℚ) (desc : String) (c : DBTransaction) :
    MatchSuggestion :=
  let confidence0 : ℚ := 5 / 10
  let confidence1 :=
    match c.issuedAt with
    | some d =>
      let daysDiff := |transactionDate - d|
      confidence0 + (7 - daysDiff) * (5 / 100)
    | none => confidence0
  let confidence2 :=
    if merchantBoost desc c then confidence1 + 15 / 100 else confidence1
  { transactionId := c.id,
    transactionName := jsOrString c.name (jsOrString c.merchant "Unnamed transaction"),
    confidence := min confidence2 1 }

/-- Descending order on suggestion confidence (the JS comparator
`(a, b) => b.confidence - a.confidence`). -/
def confGe (a b : MatchSuggestion) : Prop := b.confidence ≤ a.confidence

instance : DecidableRel confGe :=
  fun a b => inferInstanceAs (Decidable (b.confidence ≤ a.confidence))

instance : IsTotal MatchSuggestion confGe :=
  ⟨fun a b => le_total b.confidence a.confidence⟩

instance : IsTrans MatchSuggestion confGe :=
  ⟨fun _ _ _ h1 h2 => le_trans h2 h1⟩

/-- `findMatchingInvoices` from `lib/bank-statement-utils.ts`.  `db` is
the persisted store in retrieval order; `dateVal` models the engine's
`new Date(...)` valuation (days since epoch).  The query fetches at most
`maxSuggestions * 2` candidates for ranking. -/
def findMatchingInvoices (dateVal : String → ℚ) (db : List DBTransaction)
    (userId : String) (transaction : ExtractedTransaction)
    (maxSuggestions : ℕ := 3) : List MatchSuggestion :=
  let transactionDate := dateVal transaction.date
  let minDate := transactionDate - 7
  let maxDate := transactionDate + 7
  let candidates :=
    (db.filter (candidateFilter userId transaction.amount minDate maxDate)).take
      (maxSuggestions * 2)
  let suggestions := candidates.map (scoreCandidate transactionDate transaction.description)
  (List.insertionSort confGe suggestions).take maxSuggestions

/-! ## Statement lifecycle and import committer
(`models/bank-statements.ts`, `app/(app)/bank-statements/actions.ts`) -/

structure BankStatement where
  id : String
  userId : String
  status : String
  extractedData : Option ExtractedData
  transactionCount : ℕ
  errorMessage : Option String
deriving DecidableEq, Repr

/-- The whole persisted state this core reads and writes. -/
structure DBState where
  transactions : List DBTransaction
  statements : List BankStatement
deriving DecidableEq, Repr

/-- `getBankStatementById`: `findFirst({ where: { id, userId } })`. -/
def getBankStatementById (sts : List BankStatement) (id userId : String) :
    Option BankStatement :=
  sts.find? (fun s => s.id == id && s.userId == userId)

/-- `updateBankStatementStatus` (the status field; timestamps are not
modelled). -/
def updateBankStatementStatus (sts : List BankStatement) (id userId status : String) :
    List BankStatement :=
  sts.map (fun s => if s.id == id && s.userId == userId then { s with status := status } else s)

structure ImportOptions where
  skipDuplicates : Option Bool
  defaultCategory : Option String
  defaultProject : Option String
deriving DecidableEq, Repr

structure ImportResult where
  importedCount : ℕ
  skippedDuplicates : ℕ
  transactionIds : List String
deriving DecidableEq, Repr

/-- The selection phase of `importBankTransactions`: keep the `selected`
transactions, filter by the explicit id list when a non-empty one was
passed, and under `skipDuplicates` split off the ones flagged
`isDuplicate` (returning the kept list and the skipped count). -/
def importSelection (data : ExtractedData) (transactionIds : Option (List String))
    (skipDuplicates : Bool) : List ExtractedTransaction × ℕ :=
  let toImport0 := data.transactions.filter (·.selected)
  let toImport1 :=
    match transactionIds with
    | some ids =>
      if 0 < ids.length then toImport0.filter (fun t => ids.contains t.id) else toImport0
    | none => toImport0
  if skipDuplicates then
    (toImport1.filter (fun t => !t.isDuplicate), (toImport1.filter (·.isDuplicate)).length)
  else (toImport1, 0)

/-- The record built by `tx.transaction.create` inside the import loop. -/
def mkDBTransaction (dateVal : String → ℚ) (userId statementId : String)
    (opts : ImportOptions) (newId : String) (extracted : ExtractedTransaction) :
    DBTransaction :=
  { id := newId,
    userId := userId,
    name := some (String.mk (extracted.description.data.take 100)),
    description := some extracted.description,
    merchant := none,
    total := extracted.amount.map (fun a => if extracted.type = .debit then -a else a),
    currencyCode := some extracted.currency,
    type := some (if extracted.type = .debit then "expense" else "income"),
    issuedAt := some (dateVal extracted.date),
    sourceType := some "bank-import",
    sourceId := some statementId,
    transactionHash := some extracted.hash,
    categoryCode := opts.defaultCategory,
    projectCode := opts.defaultProject,
    linkedTransactionId := none }

/-- The `prisma.$transaction` body: create one persisted transaction per
selected extraction.  `failAt = some k` models the k-th creation
throwing; the transactional wrapper then rolls the whole batch back,
which is modelled by returning `none` (no rows, no ids). -/
def runCreatesAux (dateVal : String → ℚ) (freshDbId : ℕ → String) (failAt : Option ℕ)
    (userId statementId : String) (opts : ImportOptions) :
    ℕ → List ExtractedTransaction → List DBTransaction × List String →
      Option (List DBTransaction × List String)
  | _, [], acc => some acc
  | i, tx :: rest, (rows, ids) =>
    if failAt = some i then none
    else
      let t := mkDBTransaction dateVal userId statementId opts (freshDbId i) tx
      runCreatesAux dateVal freshDbId failAt userId statementId opts (i + 1) rest
        (rows ++ [t], ids ++ [t.id])

def runCreates (dateVal : String → ℚ) (freshDbId : ℕ → String) (failAt : Option ℕ)
    (userId statementId : String) (opts : ImportOptions)
    (toImport : List ExtractedTransaction) : Option (List DBTransaction × List String) :=
  runCreatesAux dateVal freshDbId failAt userId statementId opts 0 toImport ([], [])

/-- `importBankTransactions` from `app/(app)/bank-statements/actions.ts`.
Returns the updated store and the action result.  The JSON round-trip of
`extractedData` through `parseJsonField` is the identity in this model,
and the caught creation error surfaces as the fixed message
`"Import failed"`. -/
def importBankTransactions (dateVal : String → ℚ) (freshDbId : ℕ → String)
    (failAt : Option ℕ) (st : DBState) (userId statementId : String)
    (transactionIds : Option (List String)) (opts : ImportOptions) :
    DBState × Except String ImportResult :=
  match getBankStatementById st.statements statementId userId with
  | none => (st, .error "Statement not found or not processed")
  | some statement =>
    match statement.extractedData with
    | none => (st, .error "Statement not found or not processed")
    | some extractedData =>
      let skipDuplicates := opts.skipDuplicates.getD true
      let sel := importSelection extractedData transactionIds skipDuplicates
      if sel.1 = [] then
        (st, .ok { importedCount := 0, skippedDuplicates := sel.2, transactionIds := [] })
      else
        match runCreates dateVal freshDbId failAt userId statementId opts sel.1 with
        | none => (st, .error "Import failed")
        | some (rows, createdIds) =>
          ({ transactions := st.transactions ++ rows,
             statements := updateBankStatementStatus st.statements statementId userId "imported" },
           .ok { importedCount := createdIds.length, skippedDuplicates := sel.2,
                 transactionIds := createdIds })

/-! ## Helper lemmas -/

/-- The exact-decimal rounding agrees with `Math.round` of the decimal's
rational value. -/
lemma jsRoundDec_eq_jsRound (m e : ℤ) : jsRoundDec m e = jsRound (decimalValue m e) := by
  unfold jsRoundDec jsRound decimalValue
  have hhalf : ⌊(1 / 2 : ℚ)⌋ = 0 := by
    rw [Int.floor_eq_zero_iff]
    constructor <;> norm_num
  by_cases he : 0 ≤ e
  · rw [if_pos he]
    have h10 : (10 : ℚ) ^ e = ((10 ^ e.toNat : ℤ) : ℚ) := by
      conv_lhs => rw [show e = (e.toNat : ℤ) from (Int.toNat_of_nonneg he).symm]
      rw [zpow_natCast]
      push_cast
      ring
    rw [h10, ← Int.cast_mul, Int.floor_int_add, hhalf, add_zero]
  · rw [if_neg he]
    push_neg at he
    set k := (-e).toNat with hk
    have hek : e = -(k : ℤ) := by
      rw [hk, Int.toNat_of_nonneg (by omega)]
      ring
    have hval : (m : ℚ) * (10 : ℚ) ^ e + 1 / 2 =
        ((2 * m + 10 ^ k : ℤ) : ℚ) / ((2 * 10 ^ k : ℕ) : ℚ) := by
      have hkpos : (0 : ℚ) < (10 : ℚ) ^ k := by positivity
      rw [hek, zpow_neg, zpow_natCast]
      push_cast
      field_simp
      ring
    rw [hval, Rat.floor_intCast_div_natCast, Int.fdiv_eq_ediv _ (by positivity)]
    push_cast
    rfl

/-- Every transaction emitted by the CSV row loop carries the content
hash of its own date, amount and description. -/
lemma parseCSVRow_hash_eq (freshId : ℕ → String) (md5 : String → String)
    (dateFallback : String → Option String) (cm : CSVColumnMapping)
    (defaultCurrency : String) (delimiter : Char) (idx : ℕ) (row : List String)
    (tx : ExtractedTransaction)
    (h : parseCSVRow freshId md5 dateFallback cm defaultCurrency delimiter idx row = some tx) :
    tx.hash = generateTransactionHash md5 tx.date tx.amount tx.description := by
  simp only [parseCSVRow] at h
  by_cases hblank : (row.all fun cell => jsTrim cell == "") = true
  · rw [if_pos hblank] at h
    exact absurd h (by simp)
  · rw [if_neg hblank] at h
    by_cases hmiss :
        getColumnValue row cm.dateColumn = "" ∨ getColumnValue row cm.amountColumn = ""
    · rw [if_pos hmiss] at h
      exact absurd h (by simp)
    · rw [if_neg hmiss] at h
      cases hd : parseDate dateFallback (getColumnValue row cm.dateColumn) with
      | error e =>
        rw [hd] at h
        exact absurd h (by simp)
      | ok date =>
        rw [hd] at h
        obtain rfl := Option.some.inj h
        rfl

theorem hash_pure_and_shared_across_pipelines :
    (∀ (md5 : String → String) (date : String) (amount : Option ℤ) (d1 d2 : String),
        normalizeDescription d1 = normalizeDescription d2 →
        generateTransactionHash md5 date amount d1 =
          generateTransactionHash md5 date amount d2) ∧
    (∀ (md5 : String → String) (date : String) (amount : Option ℤ) (d : String),
        generateTransactionHash md5 date amount d =
          generateTransactionHash md5 date amount d) ∧
    (∀ freshId md5 dateFallback rows delimiter mapping defaultCurrency data,
        parseCSV freshId md5 dateFallback rows delimiter mapping defaultCurrency = .ok data →
        ∀ tx ∈ data.transactions,
          tx.hash = generateTransactionHash md5 tx.date tx.amount tx.description) ∧
    (∀ freshId md5 previewCount llmResponse defaultCurrency data,
        parsePDF freshId md5 previewCount llmResponse defaultCurrency = .ok data →
        ∀ tx ∈ data.transactions,
          tx.hash = generateTransactionHash md5 tx.date tx.amount tx.description) := by
  refine ⟨?_, ?_, ?_, ?_⟩
  · intro md5 date amount d1 d2 h
    unfold generateTransactionHash
    rw [h]
  · intro _ _ _ _
    rfl
  · intro freshId md5 dateFallback rows delimiter mapping defaultCurrency data h tx htx
    cases rows with
    | nil => exact absurd h (by simp [parseCSV])
    | cons firstRow restRows =>
      simp only [parseCSV] at h
      cases hcm : resolveMapping mapping (firstRow.all looksLikeHeaderCell)
          (if firstRow.all looksLikeHeaderCell = true then firstRow else []) with
      | none =>
        rw [hcm] at h
        exact absurd h (by simp)
      | some cm =>
        rw [hcm] at h
        dsimp only at h
        by_cases hnil : (List.filterMap
            (fun p => parseCSVRow freshId md5 dateFallback cm defaultCurrency delimiter p.1 p.2)
            (if firstRow.all looksLikeHeaderCell = true then restRows
             else firstRow :: restRows).enum) = []
        · rw [if_pos hnil] at h
          exact absurd h (by simp)
        · rw [if_neg hnil] at h
          obtain rfl := Except.ok.inj h
          simp only [List.mem_filterMap] at htx
          obtain ⟨p, _, hp⟩ := htx
          exact parseCSVRow_hash_eq _ _ _ _ _ _ _ _ _ hp
  · intro freshId md5 previewCount llmResponse defaultCurrency data h tx htx
    simp only [parsePDF] at h
    by_cases hp0 : previewCount = 0
    · rw [if_pos hp0] at h
      exact absurd h (by simp)
    · rw [if_neg hp0] at h
      cases llmResponse with
      | error e => exact absurd h (by simp)
      | ok output =>
        simp only at h
        by_cases htx0 : output.transactions = []
        · rw [if_pos htx0] at h
          exact absurd h (by simp)
        · rw [if_neg htx0] at h
          obtain rfl := Except.ok.inj h
          simp only [List.mem_map] at htx
          obtain ⟨p, _, hp⟩ := htx
          subst hp
          rfl

/-- A row yields no transaction whenever the date or amount column is a
header-name string: the cell lookup returns the empty string and the row
is skipped as missing essential data. -/
lemma parseCSVRow_none_of_byName (freshId : ℕ → String) (md5 : String → String)
    (dateFallback : String → Option String) (cm : CSVColumnMapping)
    (defaultCurrency : String) (delimiter : Char) (idx : ℕ) (row : List String)
    (hname : (∃ n, cm.dateColumn = ColRef.byName n) ∨ (∃ n, cm.amountColumn = ColRef.byName n)) :
    parseCSVRow freshId md5 dateFallback cm defaultCurrency delimiter idx row = none := by
  simp only [parseCSVRow]
  by_cases hblank : (row.all fun cell => jsTrim cell == "") = true
  · rw [if_pos hblank]
  · rw [if_neg hblank]
    have hmiss : getColumnValue row cm.dateColumn = "" ∨ getColumnValue row cm.amountColumn = "" := by
      rcases hname with ⟨n, hn⟩ | ⟨n, hn⟩
      · exact Or.inl (by rw [hn]; rfl)
      · exact Or.inr (by rw [hn]; rfl)
    rw [if_pos hmiss]

/-- Claim C10 as stated is false at the empty file: `parseCSV` then
reports `"CSV file is empty"`, not the no-valid-transactions error. -/
theorem parseCSV_byName_empty_file_counterexample :
    parseCSV (fun n => toString n) (fun s => s) (fun _ => none) [] ','
      (some { dateColumn := ColRef.byName "Date", descriptionColumn := ColRef.byIdx 1,
              amountColumn := ColRef.byName "Amount", typeColumn := none,
              currencyColumn := none }) "EUR" = .error "CSV file is empty" ∧
    ("CSV file is empty" : String) ≠ "No valid transactions found in CSV file" := by
  exact ⟨rfl, by decide⟩

/-- C10 (amended): for every file whose engine parse yields at least one
row, a mapping whose date or amount column is a header-name string makes
`parseCSV` skip every row and fail with the no-valid-transactions error. -/
theorem parseCSV_byName_mapping_yields_no_transactions
    (freshId : ℕ → String) (md5 : String → String)
    (dateFallback : String → Option String) (rows : List (List String))
    (delimiter : Char) (cm : CSVColumnMapping) (defaultCurrency : String)
    (hrows : rows ≠ [])
    (hname : (∃ n, cm.dateColumn = ColRef.byName n) ∨ (∃ n, cm.amountColumn = ColRef.byName n)) :
    parseCSV freshId md5 dateFallback rows delimiter (some cm) defaultCurrency =
      .error "No valid transactions found in CSV file" := by
  cases rows with
  | nil => exact absurd rfl hrows
  | cons firstRow restRows =>
    simp only [parseCSV]
    rw [show resolveMapping (some cm) (firstRow.all looksLikeHeaderCell)
        (if firstRow.all looksLikeHeaderCell = true then firstRow else []) = some cm from rfl]
    dsimp only
    rw [if_pos]
    apply List.filterMap_eq_nil_iff.mpr
    intro p _
    exact parseCSVRow_none_of_byName _ _ _ _ _ _ _ _ hname

theorem parseCSV_byName_mapping_yields_no_transactions_witness :
    parseCSV (fun n => toString n) (fun s => s) (fun _ => none)
      [["2024-01-13", "Coffee", "-4.50"]] ','
      (some { dateColumn := ColRef.byName "Date", descriptionColumn := ColRef.byIdx 1,
              amountColumn := ColRef.byIdx 2, typeColumn := none,
              currencyColumn := none }) "EUR" =
      .error "No valid transactions found in CSV file" :=
  parseCSV_byName_mapping_yields_no_transactions _ _ _ _ _ _ _
    (by decide) (Or.inl ⟨"Date", rfl⟩)

/-- C8 evaluated at the failing input: a provider answer whose entry has
`amount = -50` makes the AI pipeline emit a transaction with a negative
amount of `-5000` cents, violating the `amount ≥ 0` invariant. -/
theorem parsePDF_emits_negative_amount :
    (parsePDF (fun n => toString n) (fun s => s) 1
        (.ok { bankName := none, accountNumber := none, currency := none,
               transactions := [{ date := "2024-01-15", description := "Refund",
                                  amount := -50, type := TxType.credit }] }) "EUR").map
      (fun d => d.transactions.map (fun t => t.amount)) = .ok [some (-5000)] ∧
    (-5000 : ℤ) < 0 := by
  constructor
  · have hr : jsRound (-(50 * 100) : ℚ) = -5000 := by
      rw [jsRound, Int.floor_eq_iff]
      · constructor <;> norm_num
    simp only [parsePDF]
    rw [if_neg (by decide : ¬(1 = 0))]
    rw [if_neg (by simp)]
    simp [Except.map, List.enum, hr]
  · decide

/-- C4: amount parsing.  `"1,234.56"` and `"1.234,56"` both parse to
123456 minor units; `"-50.00"` parses to 5000 with type `debit`; a
detected negative sign forces type `debit` while a non-negative string
keeps the caller-supplied default; the European interpretation is chosen
exactly when the cleaned string ends in a comma followed by exactly two
digits; rounding is to the nearest minor unit (`"2.345"` → 235); parsed
amounts are never negative. -/
theorem parseAmount_spec :
    (∀ dt, (parseAmount "1,234.56" dt).1 = some 123456) ∧
    (∀ dt, (parseAmount "1.234,56" dt).1 = some 123456) ∧
    (∀ dt, parseAmount "-50.00" dt = (some 5000, TxType.debit)) ∧
    (∀ s dt, amountIsNegative s = true → (parseAmount s dt).2 = TxType.debit) ∧
    (∀ s dt, amountIsNegative s = false → (parseAmount s dt).2 = dt) ∧
    (∀ cs, eurTest cs = true ↔
      ∃ p a b, cs = p ++ [',', a, b] ∧ a.isDigit = true ∧ b.isDigit = true) ∧
    (∀ s dt v, (parseAmount s dt).1 = some v → 0 ≤ v) ∧
    (∀ dt, (parseAmount "2.345" dt).1 = some 235) := by
  refine ⟨?_, ?_, ?_, ?_, ?_, ?_, ?_, ?_⟩
  · intro dt
    cases dt <;> decide
  · intro dt
    cases dt <;> decide
  · intro dt
    cases dt <;> decide
  · intro s dt h
    simp [parseAmount, h]
  · intro s dt h
    cases dt <;> simp [parseAmount, h]
  · intro cs
    constructor
    · intro h
      unfold eurTest at h
      rcases hrev : cs.reverse with _ | ⟨b, _ | ⟨a, _ | ⟨c, p⟩⟩⟩ <;> rw [hrev] at h
      · simp at h
      · simp at h
      · simp at h
      · simp only [Bool.and_eq_true, beq_iff_eq] at h
        obtain ⟨⟨hc, ha⟩, hb⟩ := h
        refine ⟨p.reverse, a, b, ?_, ha, hb⟩
        have hcs : cs = (b :: a :: c :: p).reverse := by
          rw [← hrev, List.reverse_reverse]
        rw [hcs, hc]
        simp
    · rintro ⟨p, a, b, rfl, ha, hb⟩
      unfold eurTest
      rw [List.reverse_append]
      simp [ha, hb]
  · intro s dt v h
    simp only [parseAmount, Option.map_map, Option.map_eq_some'] at h
    obtain ⟨me, _, hv⟩ := h
    rw [← hv]
    exact abs_nonneg _
  · intro dt
    cases dt <;> decide

theorem parseAmount_spec_witness :
    (parseAmount "(45)" TxType.credit).2 = TxType.debit ∧
    (parseAmount "45" TxType.credit).2 = TxType.credit ∧
    eurTest "12,34".data = true ∧
    (0 : ℤ) ≤ 5000 :=
  ⟨parseAmount_spec.2.2.2.1 "(45)" TxType.credit (by decide),
   parseAmount_spec.2.2.2.2.1 "45" TxType.credit (by decide),
   (parseAmount_spec.2.2.2.2.2.1 "12,34".data).mpr
     ⟨"12".data, '3', '4', by decide, by decide, by decide⟩,
   parseAmount_spec.2.2.2.2.2.2.1 "-50.00" TxType.debit 5000 (by decide)⟩

/-! ### Date-parsing lemmas: the three matchers are mutually exclusive -/

lemma isoTest_digits_prefix (cs : List Char) (h : isoTest cs = true) :
    4 ≤ (cs.takeWhile Char.isDigit).length := by
  unfold isoTest at h
  split at h
  · rename_i a b c d e f g k rest
    simp only [Bool.and_eq_true] at h
    obtain ⟨⟨⟨⟨⟨⟨⟨ha, hb⟩, hc⟩, hd⟩, _⟩, _⟩, _⟩, _⟩ := h
    simp [List.takeWhile_cons, ha, hb, hc, hd]
  · exact absurd h (by simp)

lemma slashMatch_short_prefix (cs : List Char) (x : List Char × List Char × List Char)
    (h : slashMatch cs = some x) : (cs.takeWhile Char.isDigit).length ≤ 2 := by
  simp only [slashMatch] at h
  split at h
  · exact absurd h (by simp)
  · rename_i hcond
    push_neg at hcond
    omega

lemma dotMatch_short_prefix (cs : List Char) (x : List Char × List Char × List Char)
    (h : dotMatch cs = some x) : (cs.takeWhile Char.isDigit).length ≤ 2 := by
  simp only [dotMatch] at h
  split at h
  · exact absurd h (by simp)
  · rename_i hcond
    push_neg at hcond
    omega

lemma slashMatch_isoTest_false (cs : List Char) (x : List Char × List Char × List Char)
    (h : slashMatch cs = some x) : isoTest cs = false := by
  by_contra hne
  have hiso : isoTest cs = true := by
    cases hv : isoTest cs
    · exact absurd hv hne
    · rfl
  have h1 := isoTest_digits_prefix cs hiso
  have h2 := slashMatch_short_prefix cs x h
  omega

lemma dotMatch_isoTest_false (cs : List Char) (x : List Char × List Char × List Char)
    (h : dotMatch cs = some x) : isoTest cs = false := by
  by_contra hne
  have hiso : isoTest cs = true := by
    cases hv : isoTest cs
    · exact absurd hv hne
    · rfl
  have h1 := isoTest_digits_prefix cs hiso
  have h2 := dotMatch_short_prefix cs x h
  omega

lemma dotMatch_slashMatch_none (cs : List Char) (x : List Char × List Char × List Char)
    (h : dotMatch cs = some x) : slashMatch cs = none := by
  simp only [dotMatch] at h
  split at h
  · exact absurd h (by simp)
  · rename_i hlen
    simp only [slashMatch]
    rw [if_neg hlen]
    split at h
    · rename_i r2 hdrop
      rw [hdrop]
      dsimp only
      rw [if_neg (by decide : ¬('.' = '/' ∨ '.' = '-'))]
    · exact absurd h (by simp)

/-- C5: date parsing.  An ISO input is truncated to its first ten
characters; `"13/01/2024"` parses day-first regardless of the
European/US preference because 13 > 12, and symmetrically a second
component exceeding 12 forces US order; dot-separated dates are always
day-first (`"01.02.2024"` → `"2024-02-01"`); when the ISO, slash and dot
strategies and the engine fallback all fail, the error names the
unparseable input. -/
theorem parseDate_spec :
    (∀ (fb : String → Option String) (pref : Bool) (s : String), jsTrim s = s →
        isoTest s.data = true →
        parseDate fb s pref = .ok (String.mk (s.data.take 10))) ∧
    (∀ (fb : String → Option String) (pref : Bool), parseDate fb "13/01/2024" pref = .ok "2024-01-13") ∧
    (∀ (fb : String → Option String) (pref : Bool) (s : String) (f sec y : List Char),
        jsTrim s = s → slashMatch s.data = some (f, sec, y) → 12 < digitsVal f →
        parseDate fb s pref =
          .ok (String.mk y ++ "-" ++ pad2Nat (digitsVal sec) ++ "-" ++ pad2Nat (digitsVal f))) ∧
    (∀ (fb : String → Option String) (pref : Bool) (s : String) (f sec y : List Char),
        jsTrim s = s → slashMatch s.data = some (f, sec, y) →
        digitsVal f ≤ 12 → 12 < digitsVal sec →
        parseDate fb s pref =
          .ok (String.mk y ++ "-" ++ pad2Nat (digitsVal f) ++ "-" ++ pad2Nat (digitsVal sec))) ∧
    (∀ (fb : String → Option String) (pref : Bool), parseDate fb "01.02.2024" pref = .ok "2024-02-01") ∧
    (∀ (fb : String → Option String) (pref : Bool) (s : String) (d m y : List Char),
        jsTrim s = s → dotMatch s.data = some (d, m, y) →
        parseDate fb s pref = .ok (String.mk y ++ "-" ++ pad2Str m ++ "-" ++ pad2Str d)) ∧
    (∀ (fb : String → Option String) (pref : Bool) (s : String),
        isoTest (jsTrim s).data = false → slashMatch (jsTrim s).data = none →
        dotMatch (jsTrim s).data = none → fb (jsTrim s) = none →
        parseDate fb s pref = .error ("Unable to parse date: " ++ s)) := by
  have hslash : ∀ (fb : String → Option String) (pref : Bool) (s : String) (f sec y : List Char),
      jsTrim s = s → slashMatch s.data = some (f, sec, y) → 12 < digitsVal f →
      parseDate fb s pref =
        .ok (String.mk y ++ "-" ++ pad2Nat (digitsVal sec) ++ "-" ++ pad2Nat (digitsVal f)) := by
    intro fb pref s f sec y htrim hsm hf
    simp only [parseDate, htrim, slashMatch_isoTest_false s.data _ hsm, Bool.false_eq_true,
      if_false, hsm]
    rw [if_pos hf]
  have hslash2 : ∀ (fb : String → Option String) (pref : Bool) (s : String) (f sec y : List Char),
      jsTrim s = s → slashMatch s.data = some (f, sec, y) →
      digitsVal f ≤ 12 → 12 < digitsVal sec →
      parseDate fb s pref =
        .ok (String.mk y ++ "-" ++ pad2Nat (digitsVal f) ++ "-" ++ pad2Nat (digitsVal sec)) := by
    intro fb pref s f sec y htrim hsm hf hsec
    simp only [parseDate, htrim, slashMatch_isoTest_false s.data _ hsm, Bool.false_eq_true,
      if_false, hsm]
    rw [if_neg (by omega), if_pos hsec]
  have hdot : ∀ (fb : String → Option String) (pref : Bool) (s : String) (d m y : List Char),
      jsTrim s = s → dotMatch s.data = some (d, m, y) →
      parseDate fb s pref = .ok (String.mk y ++ "-" ++ pad2Str m ++ "-" ++ pad2Str d) := by
    intro fb pref s d m y htrim hdm
    simp only [parseDate, htrim, dotMatch_isoTest_false s.data _ hdm, Bool.false_eq_true,
      if_false, dotMatch_slashMatch_none s.data _ hdm, hdm]
  refine ⟨?_, ?_, hslash, hslash2, ?_, hdot, ?_⟩
  · intro fb pref s htrim hiso
    simp only [parseDate, htrim, hiso, if_true]
  · intro fb pref
    have := hslash fb pref "13/01/2024" ['1', '3'] ['0', '1'] "2024".data
      (by decide) (by decide) (by decide)
    rw [this]
    rfl
  · intro fb pref
    have := hdot fb pref "01.02.2024" ['0', '1'] ['0', '2'] "2024".data (by decide) (by decide)
    rw [this]
    rfl
  · intro fb pref s hiso hsm hdm hfb
    simp only [parseDate, hiso, Bool.false_eq_true, if_false, hsm, hdm, hfb]

theorem parseDate_spec_witness :
    parseDate (fun _ => none) "2024-01-13T10:00" true = .ok "2024-01-13" ∧
    parseDate (fun _ => none) "31/12/2024" false = .ok "2024-12-31" ∧
    parseDate (fun _ => none) "12/31/2024" true = .ok "2024-12-31" ∧
    parseDate (fun _ => none) "1.2.2024" false = .ok "2024-02-01" ∧
    parseDate (fun _ => none) "garbage" true = .error "Unable to parse date: garbage" := by
  refine ⟨?_, ?_, ?_, ?_, ?_⟩
  · have := parseDate_spec.1 (fun _ => none) true "2024-01-13T10:00" (by decide) (by decide)
    rw [this]
    rfl
  · have := parseDate_spec.2.2.1 (fun _ => none) false "31/12/2024"
      ['3', '1'] ['1', '2'] "2024".data (by decide) (by decide) (by decide)
    rw [this]
    rfl
  · have := parseDate_spec.2.2.2.1 (fun _ => none) true "12/31/2024"
      ['1', '2'] ['3', '1'] "2024".data (by decide) (by decide) (by decide) (by decide)
    rw [this]
    rfl
  · have := parseDate_spec.2.2.2.2.2.1 (fun _ => none) false "1.2.2024"
      ['1'] ['2'] "2024".data (by decide) (by decide)
    rw [this]
    rfl
  · exact parseDate_spec.2.2.2.2.2.2 (fun _ => none) true "garbage"
      (by decide) (by decide) (by decide) rfl

/-! ### Delimiter-detection lemmas -/

lemma delimScore_none (lines : List String) (d : Char)
    (h : delimConsistent lines d = false) : delimScore lines d = none := by
  unfold delimConsistent at h
  unfold delimScore
  cases hm : lines.map (fun l => jsSplitLen l d) with
  | nil => rfl
  | cons c0 rest =>
    rw [hm] at h
    dsimp only at h
    dsimp only
    rw [if_neg]
    intro hc
    rw [hc.1] at h
    simp at h

lemma delimScore_eq_some (lines : List String) (d : Char)
    (h : delimConsistent lines d = true) :
    delimScore lines d = some ((colCount lines d : ℕ) : ℚ) := by
  unfold delimConsistent at h
  unfold delimScore colCount
  cases hm : lines.map (fun l => jsSplitLen l d) with
  | nil => rw [hm] at h; simp at h
  | cons c0 rest =>
    rw [hm] at h
    dsimp only at h
    dsimp only [List.headD_cons]
    have hall : ∀ c ∈ c0 :: rest, c = c0 ∧ 1 < c := by
      intro c hc
      have := (List.all_eq_true.mp h) c hc
      simp only [Bool.and_eq_true, beq_iff_eq, decide_eq_true_eq] at this
      exact this
    have hc0 : 1 < c0 := (hall c0 (by simp)).2
    have hsum : (c0 :: rest).sum = (c0 :: rest).length * c0 := by
      rw [List.sum_eq_card_nsmul (c0 :: rest) c0 (fun x hx => (hall x hx).1)]
      simp [mul_comm]
    have hlen : 0 < (c0 :: rest).length := by simp
    have havg : ((c0 :: rest).sum : ℚ) / ((c0 :: rest).length : ℚ) = (c0 : ℚ) := by
      rw [hsum]
      push_cast
      field_simp
    rw [if_pos]
    · rw [havg]
    · constructor
      · exact h
      · rw [havg]
        exact_mod_cast hc0

lemma delimScore_some_consistent (lines : List String) (d : Char) (s : ℚ)
    (h : delimScore lines d = some s) :
    delimConsistent lines d = true ∧ s = ((colCount lines d : ℕ) : ℚ) := by
  cases hc : delimConsistent lines d
  · rw [delimScore_none lines d hc] at h
    exact absurd h (by simp)
  · rw [delimScore_eq_some lines d hc] at h
    exact ⟨rfl, (Option.some.inj h).symm⟩

lemma pickBest_mem (e : Char × ℚ) (rest : List (Char × ℚ)) :
    pickBest e rest ∈ e :: rest := by
  induction rest generalizing e with
  | nil => simp [pickBest]
  | cons x rest ih =>
    have step : pickBest e (x :: rest) = pickBest (if e.2 < x.2 then x else e) rest := rfl
    rw [step]
    have := ih (if e.2 < x.2 then x else e)
    rcases List.mem_cons.mp this with heq | hmem
    · rw [heq]
      by_cases hlt : e.2 < x.2
      · simp [hlt]
      · simp [hlt]
    · simp [hmem]

lemma pickBest_le (e : Char × ℚ) (rest : List (Char × ℚ)) :
    ∀ x ∈ e :: rest, x.2 ≤ (pickBest e rest).2 := by
  induction rest generalizing e with
  | nil =>
    intro x hx
    rcases List.mem_cons.mp hx with heq | hmem
    · rw [heq]; exact le_rfl
    · exact absurd hmem (by simp)
  | cons y rest ih =>
    intro x hx
    have step : pickBest e (y :: rest) = pickBest (if e.2 < y.2 then y else e) rest := rfl
    rw [step]
    have hbase : x.2 ≤ (if e.2 < y.2 then y else e).2 ∨ x ∈ rest := by
      rcases List.mem_cons.mp hx with heq | hmem
      · left
        rw [heq]
        by_cases hlt : e.2 < y.2
        · simp only [if_pos hlt]
          exact le_of_lt hlt
        · simp only [if_neg hlt]
          exact le_rfl
      · rcases List.mem_cons.mp hmem with heq | hmem'
        · left
          rw [heq]
          by_cases hlt : e.2 < y.2
          · simp only [if_pos hlt]
            exact le_rfl
          · simp only [if_neg hlt]
            exact le_of_not_lt hlt
        · right
          exact hmem'
    rcases hbase with hle | hmem
    · exact le_trans hle (ih _ _ (by simp))
    · exact ih _ _ (by simp [hmem])

/-- The head of the stable descending sort is the earliest entry of
strictly maximal score. -/
lemma pickDelim_eq_of_strict_max (entries : List (Char × ℚ)) (d : Char) (sd : ℚ)
    (hmem : (d, sd) ∈ entries)
    (hmax : ∀ x ∈ entries, x.1 ≠ d → x.2 < sd) :
    pickDelim entries = d := by
  cases entries with
  | nil => exact absurd hmem (by simp)
  | cons e rest =>
    show (pickBest e rest).1 = d
    by_cases h1 : (pickBest e rest).1 = d
    · exact h1
    · exfalso
      have hlt := hmax _ (pickBest_mem e rest) h1
      have hge : sd ≤ (pickBest e rest).2 := pickBest_le e rest _ hmem
      linarith

/-- C9: delimiter detection.  A candidate passes iff every sampled line
splits into the same column count greater than one; when no candidate
passes the comma is returned; a passing candidate with strictly the
highest column count wins; and the two concrete examples. -/
theorem detectDelimiter_spec :
    (∀ (lines : List String) (d : Char), delimConsistent lines d = true ↔
      (lines ≠ [] ∧ ∃ n, 1 < n ∧ ∀ l ∈ lines, jsSplitLen l d = n)) ∧
    (∀ content, (∀ d ∈ COMMON_DELIMITERS, delimConsistent (linesOf content) d = false) →
      detectDelimiter content = ',') ∧
    (∀ content d, d ∈ COMMON_DELIMITERS → delimConsistent (linesOf content) d = true →
      (∀ d' ∈ COMMON_DELIMITERS, d' ≠ d → delimConsistent (linesOf content) d' = true →
        colCount (linesOf content) d' < colCount (linesOf content) d) →
      detectDelimiter content = d) ∧
    detectDelimiter "a,b,c\n1,2,3\n4,5,6" = ',' ∧
    detectDelimiter "a;b;c\n1;2;3\n4;5;6" = ';' := by
  have hmaxthm : ∀ content d, d ∈ COMMON_DELIMITERS →
      delimConsistent (linesOf content) d = true →
      (∀ d' ∈ COMMON_DELIMITERS, d' ≠ d → delimConsistent (linesOf content) d' = true →
        colCount (linesOf content) d' < colCount (linesOf content) d) →
      detectDelimiter content = d := by
    intro content d hd hcons hmax
    unfold detectDelimiter
    apply pickDelim_eq_of_strict_max _ d ((colCount (linesOf content) d : ℕ) : ℚ)
    · apply List.mem_filterMap.mpr
      exact ⟨d, hd, by rw [delimScore_eq_some _ _ hcons]; rfl⟩
    · intro x hx hne
      obtain ⟨d', hd', hsome⟩ := List.mem_filterMap.mp hx
      rw [Option.map_eq_some'] at hsome
      obtain ⟨s, hscore, heq⟩ := hsome
      obtain ⟨hcons', hs⟩ := delimScore_some_consistent _ d' s hscore
      have hd'd : d' ≠ d := by
        intro hcontra
        rw [← heq] at hne
        exact hne (by simp [hcontra])
      have hlt := hmax d' hd' hd'd hcons'
      rw [← heq]
      dsimp only
      rw [hs]
      exact_mod_cast hlt
  refine ⟨?_, ?_, hmaxthm, ?_, ?_⟩
  · intro lines d
    unfold delimConsistent
    cases lines with
    | nil => simp
    | cons l ls =>
      dsimp only [List.map_cons]
      constructor
      · intro h
        have hall : ∀ c ∈ jsSplitLen l d :: ls.map (fun l => jsSplitLen l d),
            c = jsSplitLen l d ∧ 1 < c := by
          intro c hc
          have := List.all_eq_true.mp h c hc
          simpa using this
        refine ⟨by simp, jsSplitLen l d, (hall _ (by simp)).2, ?_⟩
        intro l' hl'
        rcases List.mem_cons.mp hl' with rfl | hl''
        · rfl
        · exact (hall _ (by simp [List.mem_map_of_mem _ hl''])).1
      · rintro ⟨-, n, hn, hsl⟩
        apply List.all_eq_true.mpr
        intro c hc
        have h0 : jsSplitLen l d = n := hsl l (by simp)
        rcases List.mem_cons.mp hc with rfl | hc'
        · simp [hn, h0]
        · obtain ⟨l', hl', rfl⟩ := List.mem_map.mp hc'
          have h1 : jsSplitLen l' d = n := hsl l' (by simp [hl'])
          simp [h1, h0, hn]
  · intro content h
    unfold detectDelimiter
    have h1 := delimScore_none _ ',' (h ',' (by decide))
    have h2 := delimScore_none _ ';' (h ';' (by decide))
    have h3 := delimScore_none _ '\t' (h '\t' (by decide))
    have h4 := delimScore_none _ '|' (h '|' (by decide))
    simp [COMMON_DELIMITERS, List.filterMap_cons, h1, h2, h3, h4, pickDelim]
  · exact hmaxthm "a,b,c\n1,2,3\n4,5,6" ',' (by decide) (by decide) (by decide)
  · exact hmaxthm "a;b;c\n1;2;3\n4;5;6" ';' (by decide) (by decide) (by decide)

theorem detectDelimiter_spec_witness :
    delimConsistent (linesOf "a|b\nc|d") '|' = true ∧
    detectDelimiter "a|b\nc|d" = '|' ∧
    detectDelimiter "plain text\nwithout separators" = ',' := by
  refine ⟨by decide, ?_, ?_⟩
  · exact detectDelimiter_spec.2.2.1 "a|b\nc|d" '|' (by decide) (by decide) (by decide)
  · exact detectDelimiter_spec.2.1 "plain text\nwithout separators" (by decide)

/-! ### Import-committer lemmas -/

/-- If the designated failing position lies inside the batch, the
transactional create loop aborts. -/
lemma runCreatesAux_fail (dateVal : String → ℚ) (freshDbId : ℕ → String)
    (userId statementId : String) (opts : ImportOptions) :
    ∀ (l : List ExtractedTransaction) (i k : ℕ) (acc : List DBTransaction × List String),
      i ≤ k → k < i + l.length →
      runCreatesAux dateVal freshDbId (some k) userId statementId opts i l acc = none := by
  intro l
  induction l with
  | nil =>
    intro i k acc h1 h2
    simp at h2
    omega
  | cons tx rest ih =>
    intro i k acc h1 h2
    obtain ⟨rows, ids⟩ := acc
    simp only [runCreatesAux]
    by_cases hik : k = i
    · rw [if_pos (by rw [hik])]
    · rw [if_neg (by simp [Ne.symm]; omega)]
      apply ih (i + 1) k _ (by omega)
      simp only [List.length_cons] at h2
      omega

/-- Helper records for concrete witnesses. -/
def sampleTx : ExtractedTransaction :=
  { id := "t1", date := "2024-01-13", description := "Coffee", amount := some 450,
    type := .debit, currency := "EUR", confidence := 1, rawLine := none,
    edited := false, selected := true, hash := "h1", isDuplicate := false,
    duplicateOf := none }

def sampleData (txs : List ExtractedTransaction) : ExtractedData :=
  { transactions := txs, summary := calculateSummary txs,
    parsingMetadata := { format := "csv", detectedDelimiter := none,
                         detectedDateFormat := none, columnMapping := none } }

def sampleStatement (sid uid : String) (d : ExtractedData) : BankStatement :=
  { id := sid, userId := uid, status := "ready", extractedData := some d,
    transactionCount := d.transactions.length, errorMessage := none }

/-- C2: the import commit is atomic.  Whenever the creation of any
transaction of the selected batch fails, the whole call leaves the
persisted store and the statement list (hence the statement's status)
unchanged and reports an error. -/
theorem importBankTransactions_atomic
    (dateVal : String → ℚ) (freshDbId : ℕ → String) (st : DBState)
    (userId statementId : String) (transactionIds : Option (List String))
    (opts : ImportOptions) (statement : BankStatement) (data : ExtractedData) (k : ℕ)
    (hfind : getBankStatementById st.statements statementId userId = some statement)
    (hdata : statement.extractedData = some data)
    (hk : k < (importSelection data transactionIds (opts.skipDuplicates.getD true)).1.length) :
    (importBankTransactions dateVal freshDbId (some k) st userId statementId
        transactionIds opts).1 = st ∧
    ∃ e, (importBankTransactions dateVal freshDbId (some k) st userId statementId
        transactionIds opts).2 = .error e := by
  have hfail : runCreates dateVal freshDbId (some k) userId statementId opts
      (importSelection data transactionIds (opts.skipDuplicates.getD true)).1 = none := by
    unfold runCreates
    exact runCreatesAux_fail dateVal freshDbId userId statementId opts _ 0 k ([], [])
      (Nat.zero_le k) (by omega)
  unfold importBankTransactions
  rw [hfind]
  dsimp only
  rw [hdata]
  dsimp only
  rw [if_neg (by intro hnil; rw [hnil] at hk; simp at hk), hfail]
  exact ⟨rfl, "Import failed", rfl⟩

theorem importBankTransactions_atomic_witness :
    (importBankTransactions (fun _ => 0) (fun _ => "x") (some 0)
        { transactions := [], statements := [sampleStatement "s1" "u" (sampleData [sampleTx])] }
        "u" "s1" none { skipDuplicates := some true, defaultCategory := none,
                        defaultProject := none }).1 =
      { transactions := [], statements := [sampleStatement "s1" "u" (sampleData [sampleTx])] } ∧
    ∃ e, (importBankTransactions (fun _ => 0) (fun _ => "x") (some 0)
        { transactions := [], statements := [sampleStatement "s1" "u" (sampleData [sampleTx])] }
        "u" "s1" none { skipDuplicates := some true, defaultCategory := none,
                        defaultProject := none }).2 = .error e :=
  importBankTransactions_atomic (fun _ => 0) (fun _ => "x")
    { transactions := [], statements := [sampleStatement "s1" "u" (sampleData [sampleTx])] }
    "u" "s1" none _ (sampleStatement "s1" "u" (sampleData [sampleTx])) (sampleData [sampleTx]) 0
    rfl rfl (by decide)

/-- Claim C6 as stated is false for an explicitly given *empty* id
subset: the code treats `transactionIds = []` as "no filter" and imports
the selected transaction anyway, while intersecting with the empty
subset would have to import nothing. -/
theorem importBankTransactions_empty_ids_counterexample :
    (importBankTransactions (fun _ => 0) (fun _ => "x") none
        { transactions := [], statements := [sampleStatement "s1" "u" (sampleData [sampleTx])] }
        "u" "s1" (some []) { skipDuplicates := some true, defaultCategory := none,
                             defaultProject := none }).2 =
      .ok { importedCount := 1, skippedDuplicates := 0, transactionIds := ["x"] } ∧
    (1 : ℕ) ≠ 0 :=
  ⟨rfl, by decide⟩

/-- C6 (amended): the imported set is exactly the `selected`
transactions, intersected with the explicit id subset whenever a
*non-empty* one was given (an explicitly empty id list is ignored),
minus — under `skipDuplicates` — the ones flagged `isDuplicate`, which
are counted in `skippedDuplicates`; an empty resulting selection returns
a zero-count success, not an error. -/
theorem importSelection_spec :
    (∀ (data : ExtractedData) (ids : Option (List String)) (skipDup : Bool),
      (importSelection data ids skipDup).1 =
        data.transactions.filter (fun t =>
          t.selected &&
          (match ids with
           | some l => if l.isEmpty then true else l.contains t.id
           | none => true) &&
          !(skipDup && t.isDuplicate)) ∧
      (importSelection data ids skipDup).2 =
        (data.transactions.filter (fun t =>
          t.selected &&
          (match ids with
           | some l => if l.isEmpty then true else l.contains t.id
           | none => true) &&
          (skipDup && t.isDuplicate))).length) ∧
    (∀ (dateVal : String → ℚ) (freshDbId : ℕ → String) (failAt : Option ℕ)
        (st : DBState) (userId statementId : String) (ids : Option (List String))
        (opts : ImportOptions) (statement : BankStatement) (data : ExtractedData),
      getBankStatementById st.statements statementId userId = some statement →
      statement.extractedData = some data →
      (importSelection data ids (opts.skipDuplicates.getD true)).1 = [] →
      importBankTransactions dateVal freshDbId failAt st userId statementId ids opts =
        (st, .ok { importedCount := 0,
                   skippedDuplicates := (importSelection data ids (opts.skipDuplicates.getD true)).2,
                   transactionIds := [] })) := by
  constructor
  · intro data ids skipDup
    have elem : ∀ (p q : ExtractedTransaction → Bool) (l : List ExtractedTransaction),
        (∀ t, p t = q t) → l.filter p = l.filter q :=
      fun p q l h => List.filter_congr (fun t _ => h t)
    unfold importSelection
    cases ids with
    | none =>
      cases skipDup with
      | false =>
        rw [if_neg (by simp : ¬(false : Bool) = true)]
        refine ⟨?_, ?_⟩
        · exact elem _ _ _ (fun t => by cases t.selected <;> cases t.isDuplicate <;> rfl)
        · simp
      | true =>
        rw [if_pos (rfl : (true : Bool) = true)]
        refine ⟨?_, ?_⟩
        · dsimp only
          rw [List.filter_filter]
          exact elem _ _ _ (fun t => by cases t.selected <;> cases t.isDuplicate <;> rfl)
        · dsimp only
          rw [List.filter_filter]
          congr 1
          exact elem _ _ _ (fun t => by cases t.selected <;> cases t.isDuplicate <;> rfl)
    | some l =>
      by_cases hl : l = []
      · subst hl
        dsimp only
        rw [if_neg (by simp : ¬0 < ([] : List String).length)]
        cases skipDup with
        | false =>
          rw [if_neg (by simp : ¬(false : Bool) = true)]
          refine ⟨?_, ?_⟩
          · exact elem _ _ _ (fun t => by cases t.selected <;> cases t.isDuplicate <;> rfl)
          · simp
        | true =>
          rw [if_pos (rfl : (true : Bool) = true)]
          refine ⟨?_, ?_⟩
          · dsimp only
            rw [List.filter_filter]
            exact elem _ _ _ (fun t => by cases t.selected <;> cases t.isDuplicate <;> rfl)
          · dsimp only
            rw [List.filter_filter]
            congr 1
            exact elem _ _ _ (fun t => by cases t.selected <;> cases t.isDuplicate <;> rfl)
      · have hlen : 0 < l.length := List.length_pos.mpr hl
        have hemp : l.isEmpty = false := by
          cases l with
          | nil => exact absurd rfl hl
          | cons a as => rfl
        dsimp only
        rw [if_pos hlen]
        cases skipDup with
        | false =>
          rw [if_neg (by simp : ¬(false : Bool) = true)]
          refine ⟨?_, ?_⟩
          · dsimp only
            rw [List.filter_filter]
            exact elem _ _ _ (fun t => by
              simp only [hemp, Bool.false_eq_true, if_false]
              cases t.selected <;> cases t.isDuplicate <;> cases l.contains t.id <;> rfl)
          · simp
        | true =>
          rw [if_pos (rfl : (true : Bool) = true)]
          refine ⟨?_, ?_⟩
          · dsimp only
            rw [List.filter_filter, List.filter_filter]
            exact elem _ _ _ (fun t => by
              simp only [hemp, Bool.false_eq_true, if_false]
              cases t.selected <;> cases t.isDuplicate <;> cases l.contains t.id <;> rfl)
          · dsimp only
            rw [List.filter_filter, List.filter_filter]
            congr 1
            exact elem _ _ _ (fun t => by
              simp only [hemp, Bool.false_eq_true, if_false]
              cases t.selected <;> cases t.isDuplicate <;> cases l.contains t.id <;> rfl)
  · intro dateVal freshDbId failAt st userId statementId ids opts statement data
      hfind hdata hsel
    unfold importBankTransactions
    rw [hfind]
    dsimp only
    rw [hdata]
    dsimp only
    rw [if_pos hsel]

theorem importSelection_spec_witness :
    importBankTransactions (fun _ => 0) (fun _ => "x") none
        { transactions := [],
          statements := [sampleStatement "s1" "u"
            (sampleData [{ sampleTx with isDuplicate := true }])] }
        "u" "s1" none { skipDuplicates := some true, defaultCategory := none,
                        defaultProject := none } =
      ({ transactions := [],
         statements := [sampleStatement "s1" "u"
           (sampleData [{ sampleTx with isDuplicate := true }])] },
       .ok { importedCount := 0, skippedDuplicates := 1, transactionIds := [] }) :=
  importSelection_spec.2 (fun _ => 0) (fun _ => "x") none
    { transactions := [],
      statements := [sampleStatement "s1" "u"
        (sampleData [{ sampleTx with isDuplicate := true }])] }
    "u" "s1" none _ (sampleStatement "s1" "u"
      (sampleData [{ sampleTx with isDuplicate := true }]))
    (sampleData [{ sampleTx with isDuplicate := true }]) rfl rfl (by decide)

/-! ### Reconciliation-matcher lemmas -/

/-- Of two candidates with the same issue date, the one receiving the
merchant boost scores strictly higher, even after the cap at 1. -/
lemma scoreCandidate_boost_lt (d : ℚ) (desc : String) (c1 c2 : DBTransaction)
    (hiss : c1.issuedAt = c2.issuedAt)
    (hb1 : merchantBoost desc c1 = true) (hb2 : merchantBoost desc c2 = false) :
    (scoreCandidate d desc c2).confidence < (scoreCandidate d desc c1).confidence := by
  simp only [scoreCandidate]
  rw [hb1, hb2, hiss]
  rw [if_pos (rfl : (true : Bool) = true), if_neg (by simp : ¬((false : Bool) = true))]
  cases c2.issuedAt with
  | none =>
    dsimp only
    rw [min_eq_left (by norm_num), min_eq_left (by norm_num)]
    norm_num
  | some t =>
    dsimp only
    have habs : 0 ≤ |d - t| := abs_nonneg _
    have hpre : 5 / 10 + (7 - |d - t|) * (5 / 100) ≤ 17 / 20 := by nlinarith
    rw [min_eq_left (by linarith), min_eq_left (by linarith)]
    linarith

/-- C7: reconciliation scoring and ranking.  Every returned suggestion
comes from a candidate passing the query filter and scores
`min (0.5 + date-closeness bonus + merchant bonus) 1`; suggestions are
sorted by descending confidence, truncated to the top `maxSuggestions`,
never exceed confidence 1, and of two candidates identical except for
merchant-name overlap the overlapping one ranks first. -/
theorem findMatchingInvoices_spec :
    (∀ (dateVal : String → ℚ) (db : List DBTransaction) (userId : String)
        (transaction : ExtractedTransaction) (k : ℕ) (s : MatchSuggestion),
      s ∈ findMatchingInvoices dateVal db userId transaction k →
      ∃ c ∈ db, candidateFilter userId transaction.amount (dateVal transaction.date - 7)
          (dateVal transaction.date + 7) c = true ∧
        s = scoreCandidate (dateVal transaction.date) transaction.description c) ∧
    (∀ (d : ℚ) (desc : String) (c : DBTransaction),
      (scoreCandidate d desc c).confidence =
        min ((5 : ℚ) / 10 +
          (match c.issuedAt with
           | some t => (7 - |d - t|) * (5 / 100)
           | none => 0) +
          (if merchantBoost desc c then (15 : ℚ) / 100 else 0)) 1) ∧
    (∀ (dateVal : String → ℚ) (db : List DBTransaction) (userId : String)
        (transaction : ExtractedTransaction) (k : ℕ) (s : MatchSuggestion),
      s ∈ findMatchingInvoices dateVal db userId transaction k → s.confidence ≤ 1) ∧
    (∀ (dateVal : String → ℚ) (db : List DBTransaction) (userId : String)
        (transaction : ExtractedTransaction) (k : ℕ),
      (findMatchingInvoices dateVal db userId transaction k).Pairwise
        (fun a b => b.confidence ≤ a.confidence)) ∧
    (∀ (dateVal : String → ℚ) (db : List DBTransaction) (userId : String)
        (transaction : ExtractedTransaction) (k : ℕ),
      (findMatchingInvoices dateVal db userId transaction k).length ≤ k) ∧
    (∀ (dateVal : String → ℚ) (userId : String) (transaction : ExtractedTransaction)
        (c1 c2 : DBTransaction),
      candidateFilter userId transaction.amount (dateVal transaction.date - 7)
        (dateVal transaction.date + 7) c1 = true →
      candidateFilter userId transaction.amount (dateVal transaction.date - 7)
        (dateVal transaction.date + 7) c2 = true →
      c1.issuedAt = c2.issuedAt →
      merchantBoost transaction.description c1 = true →
      merchantBoost transaction.description c2 = false →
      (findMatchingInvoices dateVal [c2, c1] userId transaction 3).head? =
        some (scoreCandidate (dateVal transaction.date) transaction.description c1)) := by
  have hmem : ∀ (dateVal : String → ℚ) (db : List DBTransaction) (userId : String)
      (transaction : ExtractedTransaction) (k : ℕ) (s : MatchSuggestion),
      s ∈ findMatchingInvoices dateVal db userId transaction k →
      ∃ c ∈ db, candidateFilter userId transaction.amount (dateVal transaction.date - 7)
          (dateVal transaction.date + 7) c = true ∧
        s = scoreCandidate (dateVal transaction.date) transaction.description c := by
    intro dateVal db userId transaction k s hs
    unfold findMatchingInvoices at hs
    have hs1 : s ∈ List.insertionSort confGe
        (((db.filter (candidateFilter userId transaction.amount
            (dateVal transaction.date - 7) (dateVal transaction.date + 7))).take
          (k * 2)).map (scoreCandidate (dateVal transaction.date) transaction.description)) :=
      List.mem_of_mem_take hs
    rw [(List.perm_insertionSort confGe _).mem_iff] at hs1
    obtain ⟨c, hc, hsc⟩ := List.mem_map.mp hs1
    have hc2 : c ∈ db.filter (candidateFilter userId transaction.amount
        (dateVal transaction.date - 7) (dateVal transaction.date + 7)) :=
      List.take_subset _ _ hc
    obtain ⟨hcdb, hcf⟩ := List.mem_filter.mp hc2
    exact ⟨c, hcdb, hcf, hsc.symm⟩
  have hformula : ∀ (d : ℚ) (desc : String) (c : DBTransaction),
      (scoreCandidate d desc c).confidence =
        min ((5 : ℚ) / 10 +
          (match c.issuedAt with
           | some t => (7 - |d - t|) * (5 / 100)
           | none => 0) +
          (if merchantBoost desc c then (15 : ℚ) / 100 else 0)) 1 := by
    intro d desc c
    unfold scoreCandidate
    cases c.issuedAt with
    | none =>
      dsimp only
      cases hb : merchantBoost desc c <;> simp
    | some t =>
      dsimp only
      cases hb : merchantBoost desc c <;> simp [add_assoc]
  refine ⟨hmem, hformula, ?_, ?_, ?_, ?_⟩
  · intro dateVal db userId transaction k s hs
    obtain ⟨c, _, _, rfl⟩ := hmem dateVal db userId transaction k s hs
    rw [hformula]
    exact min_le_right _ _
  · intro dateVal db userId transaction k
    have hsorted : (List.insertionSort confGe
        (((db.filter (candidateFilter userId transaction.amount
            (dateVal transaction.date - 7) (dateVal transaction.date + 7))).take
          (k * 2)).map (scoreCandidate (dateVal transaction.date)
            transaction.description))).Pairwise confGe :=
      List.sorted_insertionSort confGe _
    exact hsorted.sublist (List.take_sublist _ _)
  · intro dateVal db userId transaction k
    unfold findMatchingInvoices
    exact List.length_take_le _ _
  · intro dateVal userId transaction c1 c2 hf1 hf2 hiss hb1 hb2
    have hlt := scoreCandidate_boost_lt (dateVal transaction.date)
      transaction.description c1 c2 hiss hb1 hb2
    simp only [findMatchingInvoices]
    rw [List.filter_cons_of_pos hf2, List.filter_cons_of_pos hf1, List.filter_nil]
    rw [List.take_of_length_le (show ([c2, c1] : List DBTransaction).length ≤ 3 * 2 by simp)]
    rw [List.map_cons, List.map_cons, List.map_nil]
    have hsort : List.insertionSort confGe
        [scoreCandidate (dateVal transaction.date) transaction.description c2,
         scoreCandidate (dateVal transaction.date) transaction.description c1] =
        [scoreCandidate (dateVal transaction.date) transaction.description c1,
         scoreCandidate (dateVal transaction.date) transaction.description c2] := by
      dsimp only [List.insertionSort, List.orderedInsert]
      rw [if_neg (show ¬confGe
        (scoreCandidate (dateVal transaction.date) transaction.description c2)
        (scoreCandidate (dateVal transaction.date) transaction.description c1) from
        not_le.mpr hlt)]
    rw [hsort]
    rfl

theorem findMatchingInvoices_spec_witness :
    (findMatchingInvoices (fun _ => 0)
        [⟨"c2", "u", none, none, some "Shop", some 450, none, none, some 0, some "invoice",
          none, none, none, none, none⟩,
         ⟨"c1", "u", none, none, some "Coffee", some 450, none, none, some 0, some "invoice",
          none, none, none, none, none⟩]
        "u" sampleTx 3).head? =
      some (scoreCandidate 0 "Coffee"
        ⟨"c1", "u", none, none, some "Coffee", some 450, none, none, some 0, some "invoice",
         none, none, none, none, none⟩) :=
  findMatchingInvoices_spec.2.2.2.2.2 (fun _ => 0) "u" sampleTx
    ⟨"c1", "u", none, none, some "Coffee", some 450, none, none, some 0, some "invoice",
     none, none, none, none, none⟩
    ⟨"c2", "u", none, none, some "Shop", some 450, none, none, some 0, some "invoice",
     none, none, none, none, none⟩
    (by simp [candidateFilter, sampleTx]) (by simp [candidateFilter, sampleTx])
    rfl (by decide) (by decide)

/-! ### Re-upload idempotence lemmas -/

lemma mkDBTransaction_id (dateVal : String → ℚ) (userId statementId : String)
    (opts : ImportOptions) (newId : String) (extracted : ExtractedTransaction) :
    (mkDBTransaction dateVal userId statementId opts newId extracted).id = newId := rfl

/-- With no failure injected, the create loop appends one persisted row
per extraction, in order. -/
lemma runCreatesAux_none (dateVal : String → ℚ) (freshDbId : ℕ → String)
    (userId statementId : String) (opts : ImportOptions) :
    ∀ (l : List ExtractedTransaction) (i : ℕ) (rows : List DBTransaction) (ids : List String),
      runCreatesAux dateVal freshDbId none userId statementId opts i l (rows, ids) =
        some (rows ++ (List.enumFrom i l).map
                (fun p => mkDBTransaction dateVal userId statementId opts (freshDbId p.1) p.2),
              ids ++ (List.enumFrom i l).map (fun p => freshDbId p.1)) := by
  intro l
  induction l with
  | nil =>
    intro i rows ids
    simp [runCreatesAux, List.enumFrom]
  | cons tx rest ih =>
    intro i rows ids
    simp only [runCreatesAux, List.enumFrom, List.map_cons]
    rw [if_neg (by simp)]
    rw [ih]
    simp [mkDBTransaction_id, List.append_assoc]

lemma dupFold_truthy_preserve (l : List DBTransaction) (m0 : String → Option String)
    (h : String) (hm : jsTruthyStr (m0 h) = true) (hids : ∀ t ∈ l, t.id ≠ "") :
    jsTruthyStr ((l.foldl dupMapStep m0) h) = true := by
  induction l generalizing m0 with
  | nil => exact hm
  | cons t rest ih =>
    rw [List.foldl_cons]
    apply ih
    · unfold dupMapStep
      cases hth : t.transactionHash with
      | none => exact hm
      | some hh =>
        dsimp only
        by_cases hhe : hh = ""
        · rw [if_pos hhe]
          exact hm
        · rw [if_neg hhe]
          by_cases heq : (h == hh) = true
          · rw [if_pos heq]
            simp [jsTruthyStr, hids t (List.mem_cons_self t rest)]
          · rw [if_neg heq]
            exact hm
    · intro t' ht'
      exact hids t' (List.mem_cons_of_mem t ht')

lemma dupFold_truthy_hit (l : List DBTransaction) (m0 : String → Option String)
    (h : String) (hh : h ≠ "") (hex : ∃ t ∈ l, t.transactionHash = some h)
    (hids : ∀ t ∈ l, t.id ≠ "") :
    jsTruthyStr ((l.foldl dupMapStep m0) h) = true := by
  induction l generalizing m0 with
  | nil =>
    obtain ⟨t, ht, -⟩ := hex
    exact absurd ht (by simp)
  | cons t rest ih =>
    rw [List.foldl_cons]
    by_cases hth : t.transactionHash = some h
    · apply dupFold_truthy_preserve
      · unfold dupMapStep
        rw [hth]
        dsimp only
        rw [if_neg hh]
        simp [jsTruthyStr, hids t (List.mem_cons_self t rest)]
      · intro t' ht'
        exact hids t' (List.mem_cons_of_mem t ht')
    · obtain ⟨t', ht', hth'⟩ := hex
      rcases List.mem_cons.mp ht' with rfl | hmem
      · exact absurd hth' hth
      · exact ih (dupMapStep m0 t) ⟨t', hmem, hth'⟩
          (fun t'' ht'' => hids t'' (List.mem_cons_of_mem t ht''))

/-- `markDuplicates`, written as a plain map with the duplicate lookup. -/
lemma markDuplicates_eq (db : List DBTransaction) (userId : String)
    (txs : List ExtractedTransaction) :
    markDuplicates db userId txs = txs.map (fun tx =>
      { tx with
        isDuplicate := jsTruthyStr
          (findDuplicateTransactions db userId (txs.map (·.hash)) tx.hash),
        duplicateOf := findDuplicateTransactions db userId (txs.map (·.hash)) tx.hash }) := rfl

/-- When none of the batch's hashes exist for the user, `markDuplicates`
leaves every transaction unflagged. -/
lemma markDuplicates_fresh (db : List DBTransaction) (userId : String)
    (txs : List ExtractedTransaction)
    (hfresh : ∀ t ∈ txs, ∀ r ∈ db, r.userId = userId → r.transactionHash ≠ some t.hash) :
    markDuplicates db userId txs =
      txs.map (fun tx => { tx with isDuplicate := false, duplicateOf := none }) := by
  rw [markDuplicates_eq]
  have hmatch : db.filter (dupQueryFilter userId (txs.map (·.hash))) = [] := by
    rw [List.filter_eq_nil_iff]
    intro r hr
    unfold dupQueryFilter
    cases hth : r.transactionHash with
    | none => simp
    | some hh =>
      dsimp only
      rw [Bool.and_eq_true]
      rintro ⟨hu, hc⟩
      rw [List.contains_eq_any_beq] at hc
      simp only [List.any_eq_true, List.mem_map, beq_iff_eq] at hc
      obtain ⟨hsh, ⟨t, ht, rfl⟩, rfl⟩ := hc
      exact hfresh t ht r hr (by simpa using hu) hth
  apply List.map_congr_left
  intro t _
  rw [show findDuplicateTransactions db userId (txs.map (·.hash)) =
      (db.filter (dupQueryFilter userId (txs.map (·.hash)))).foldl dupMapStep
        (fun _ => none) from rfl, hmatch]
  rfl

lemma mkDBTransaction_userId (dateVal : String → ℚ) (userId statementId : String)
    (opts : ImportOptions) (newId : String) (extracted : ExtractedTransaction) :
    (mkDBTransaction dateVal userId statementId opts newId extracted).userId = userId := rfl

lemma mkDBTransaction_transactionHash (dateVal : String → ℚ) (userId statementId : String)
    (opts : ImportOptions) (newId : String) (extracted : ExtractedTransaction) :
    (mkDBTransaction dateVal userId statementId opts newId extracted).transactionHash =
      some extracted.hash := rfl

/-- Importing a batch in which everything is selected and nothing is
flagged duplicate creates one row per transaction and reports the full
count. -/
lemma import_fresh_batch (dateVal : String → ℚ) (freshDbId : ℕ → String)
    (db0 : List DBTransaction) (userId sid : String)
    (marked : List ExtractedTransaction)
    (hne : marked ≠ [])
    (hsel : ∀ t ∈ marked, t.selected = true)
    (hnodup : ∀ t ∈ marked, t.isDuplicate = false) :
    importBankTransactions dateVal freshDbId none
      ⟨db0, [sampleStatement sid userId (sampleData marked)]⟩ userId sid none
      ⟨some true, none, none⟩ =
      (⟨db0 ++ (List.enumFrom 0 marked).map
          (fun p => mkDBTransaction dateVal userId sid ⟨some true, none, none⟩
            (freshDbId p.1) p.2),
        updateBankStatementStatus [sampleStatement sid userId (sampleData marked)]
          sid userId "imported"⟩,
       .ok ⟨marked.length, 0, (List.enumFrom 0 marked).map (fun p => freshDbId p.1)⟩) := by
  have hfind : getBankStatementById [sampleStatement sid userId (sampleData marked)]
      sid userId = some (sampleStatement sid userId (sampleData marked)) := by
    unfold getBankStatementById
    rw [List.find?_cons_of_pos _ (by simp [sampleStatement])]
  have hsel1 : importSelection (sampleData marked) none true = (marked, 0) := by
    unfold importSelection sampleData
    dsimp only
    rw [List.filter_eq_self.mpr hsel]
    rw [if_pos rfl]
    rw [List.filter_eq_self.mpr (fun t ht => by rw [hnodup t ht]; rfl)]
    rw [List.filter_eq_nil_iff.mpr (fun t ht => by rw [hnodup t ht]; exact Bool.false_ne_true)]
    rfl
  unfold importBankTransactions
  rw [hfind]
  dsimp only
  rw [show (sampleStatement sid userId (sampleData marked)).extractedData =
      some (sampleData marked) from rfl]
  dsimp only
  simp only [Option.getD_some]
  rw [hsel1]
  dsimp only
  rw [if_neg hne]
  rw [show runCreates dateVal freshDbId none userId sid ⟨some true, none, none⟩ marked =
      runCreatesAux dateVal freshDbId none userId sid ⟨some true, none, none⟩ 0 marked ([], [])
      from rfl]
  rw [runCreatesAux_none]
  dsimp only
  simp only [List.nil_append]
  rw [List.length_map, List.enumFrom_length]

/-- Importing a batch in which everything is selected and everything is
flagged duplicate creates nothing: a zero-count success with the full
count skipped. -/
lemma import_dup_batch (dateVal : String → ℚ) (freshDbId : ℕ → String)
    (db : List DBTransaction) (sts : List BankStatement) (userId sid : String)
    (marked : List ExtractedTransaction)
    (hsel : ∀ t ∈ marked, t.selected = true)
    (hdup : ∀ t ∈ marked, t.isDuplicate = true)
    (hfind : getBankStatementById sts sid userId =
      some (sampleStatement sid userId (sampleData marked))) :
    importBankTransactions dateVal freshDbId none ⟨db, sts⟩ userId sid none
      ⟨some true, none, none⟩ = (⟨db, sts⟩, .ok ⟨0, marked.length, []⟩) := by
  have hsel1 : importSelection (sampleData marked) none true = ([], marked.length) := by
    unfold importSelection sampleData
    dsimp only
    rw [List.filter_eq_self.mpr hsel]
    rw [if_pos rfl]
    rw [List.filter_eq_nil_iff.mpr (fun t ht => by rw [hdup t ht]; exact fun h => by simp at h)]
    rw [List.filter_eq_self.mpr (fun t ht => hdup t ht)]
  unfold importBankTransactions
  rw [hfind]
  dsimp only
  rw [show (sampleStatement sid userId (sampleData marked)).extractedData =
      some (sampleData marked) from rfl]
  dsimp only
  simp only [Option.getD_some]
  rw [hsel1]
  rfl

/-- First upload of the scenario: processing stores the
duplicate-annotated extraction (`processBankStatement` runs
`markDuplicates` and `storeExtractedData`), then everything is imported
with the default `skipDuplicates = true`. -/
def reuploadStep1 (dateVal : String → ℚ) (freshDbId : ℕ → String)
    (db0 : List DBTransaction) (userId : String)
    (txs : List ExtractedTransaction) : DBState × Except String ImportResult :=
  importBankTransactions dateVal freshDbId none
    ⟨db0, [sampleStatement "s1" userId (sampleData (markDuplicates db0 userId txs))]⟩
    userId "s1" none ⟨some true, none, none⟩

/-- Second upload of the same file: the extraction is byte-identical
(`txs` again), is re-annotated against the store left by the first
import, and imported the same way. -/
def reuploadStep2 (dateVal : String → ℚ) (freshDbId : ℕ → String)
    (db0 : List DBTransaction) (userId : String)
    (txs : List ExtractedTransaction) : Except String ImportResult :=
  (importBankTransactions dateVal freshDbId none
    ⟨(reuploadStep1 dateVal freshDbId db0 userId txs).1.transactions,
     sampleStatement "s2" userId
         (sampleData (markDuplicates
           (reuploadStep1 dateVal freshDbId db0 userId txs).1.transactions userId txs)) ::
       (reuploadStep1 dateVal freshDbId db0 userId txs).1.statements⟩
    userId "s2" none ⟨some true, none, none⟩).2

/-- C3: re-upload followed by re-import is idempotent under the
duplicate-skip policy.  For a batch of extracted transactions whose
hashes are not yet in the user's store, the first import persists all of
them (each record storing the extracted hash as `transactionHash`) and
skips none; re-extracting the same file and importing again persists
nothing and skips the whole batch. -/
theorem reupload_idempotent
    (dateVal : String → ℚ) (freshDbId : ℕ → String) (db0 : List DBTransaction)
    (userId : String) (txs : List ExtractedTransaction)
    (hne : txs ≠ [])
    (hsel : ∀ t ∈ txs, t.selected = true)
    (hhash : ∀ t ∈ txs, t.hash ≠ "")
    (hid : ∀ n, freshDbId n ≠ "")
    (hfresh : ∀ t ∈ txs, ∀ r ∈ db0, r.userId = userId → r.transactionHash ≠ some t.hash) :
    (∃ ids, (reuploadStep1 dateVal freshDbId db0 userId txs).2 =
      .ok ⟨txs.length, 0, ids⟩) ∧
    (∀ t ∈ txs, ∃ r ∈ (reuploadStep1 dateVal freshDbId db0 userId txs).1.transactions,
      r.transactionHash = some t.hash) ∧
    reuploadStep2 dateVal freshDbId db0 userId txs = .ok ⟨0, txs.length, []⟩ := by
  classical
  have hmarked1 := markDuplicates_fresh db0 userId txs hfresh
  set unmark : ExtractedTransaction → ExtractedTransaction :=
    fun tx => { tx with isDuplicate := false, duplicateOf := none } with hunmark
  have hm1sel : ∀ t ∈ txs.map unmark, t.selected = true := by
    intro t ht
    obtain ⟨t0, ht0, rfl⟩ := List.mem_map.mp ht
    exact hsel t0 ht0
  have hm1nodup : ∀ t ∈ txs.map unmark, t.isDuplicate = false := by
    intro t ht
    obtain ⟨t0, ht0, rfl⟩ := List.mem_map.mp ht
    rfl
  have hm1ne : txs.map unmark ≠ [] := by
    intro hcontra
    exact hne (List.map_eq_nil_iff.mp hcontra)
  have hstep1 : reuploadStep1 dateVal freshDbId db0 userId txs =
      (⟨db0 ++ (List.enumFrom 0 (txs.map unmark)).map
          (fun p => mkDBTransaction dateVal userId "s1" ⟨some true, none, none⟩
            (freshDbId p.1) p.2),
        updateBankStatementStatus
          [sampleStatement "s1" userId (sampleData (txs.map unmark))] "s1" userId "imported"⟩,
       .ok ⟨(txs.map unmark).length, 0,
         (List.enumFrom 0 (txs.map unmark)).map (fun p => freshDbId p.1)⟩) := by
    unfold reuploadStep1
    rw [hmarked1]
    exact import_fresh_batch dateVal freshDbId db0 userId "s1" (txs.map unmark)
      hm1ne hm1sel hm1nodup
  -- the rows created by the first import
  set rows : List DBTransaction := (List.enumFrom 0 (txs.map unmark)).map
    (fun p => mkDBTransaction dateVal userId "s1" ⟨some true, none, none⟩
      (freshDbId p.1) p.2) with hrows
  have htrans1 : (reuploadStep1 dateVal freshDbId db0 userId txs).1.transactions =
      db0 ++ rows := by
    rw [hstep1]
  -- each extracted transaction got a row carrying its hash
  have hrowfor : ∀ t ∈ txs, ∃ r ∈ rows,
      r.transactionHash = some t.hash ∧ r.userId = userId := by
    intro t ht
    have hmem : unmark t ∈ txs.map unmark := List.mem_map_of_mem unmark ht
    have : unmark t ∈ (List.enumFrom 0 (txs.map unmark)).map Prod.snd := by
      rw [List.enumFrom_map_snd]
      exact hmem
    obtain ⟨p, hp, hsnd⟩ := List.mem_map.mp this
    refine ⟨mkDBTransaction dateVal userId "s1" ⟨some true, none, none⟩
      (freshDbId p.1) p.2, List.mem_map_of_mem _ hp, ?_, rfl⟩
    rw [mkDBTransaction_transactionHash, hsnd]
  refine ⟨⟨(List.enumFrom 0 (txs.map unmark)).map (fun p => freshDbId p.1), ?_⟩, ?_, ?_⟩
  · rw [hstep1]
    rw [List.length_map]
  · intro t ht
    obtain ⟨r, hr, hrh, -⟩ := hrowfor t ht
    exact ⟨r, by rw [htrans1]; exact List.mem_append_right db0 hr, hrh⟩
  · -- second import: everything is flagged duplicate
    have hmarked2 : ∀ t' ∈ markDuplicates (db0 ++ rows) userId txs,
        t'.selected = true ∧ t'.isDuplicate = true := by
      rw [markDuplicates_eq]
      intro t' ht'
      obtain ⟨t0, ht0, rfl⟩ := List.mem_map.mp ht'
      refine ⟨hsel t0 ht0, ?_⟩
      show jsTruthyStr (findDuplicateTransactions (db0 ++ rows) userId
        (txs.map (·.hash)) t0.hash) = true
      unfold findDuplicateTransactions
      apply dupFold_truthy_hit _ _ _ (hhash t0 ht0)
      · obtain ⟨r, hr, hrh, hru⟩ := hrowfor t0 ht0
        refine ⟨r, List.mem_filter.mpr ⟨List.mem_append_right db0 hr, ?_⟩, hrh⟩
        unfold dupQueryFilter
        rw [hrh]
        dsimp only
        rw [Bool.and_eq_true]
        constructor
        · rw [hru]
          simp
        · rw [List.contains_eq_any_beq]
          simp only [List.any_eq_true, List.mem_map, beq_iff_eq]
          exact ⟨t0.hash, ⟨t0, ht0, rfl⟩, rfl⟩
      · intro r' hr'
        obtain ⟨hrmem, hrcond⟩ := List.mem_filter.mp hr'
        rcases List.mem_append.mp hrmem with hdb0 | hrow
        · exfalso
          unfold dupQueryFilter at hrcond
          rw [Bool.and_eq_true] at hrcond
          obtain ⟨hu, hc⟩ := hrcond
          cases hth : r'.transactionHash with
          | none => rw [hth] at hc; simp at hc
          | some hh =>
            rw [hth] at hc
            dsimp only at hc
            rw [List.contains_eq_any_beq] at hc
            simp only [List.any_eq_true, List.mem_map, beq_iff_eq] at hc
            obtain ⟨hsh, ⟨t1, ht1, rfl⟩, rfl⟩ := hc
            exact hfresh t1 ht1 r' hdb0 (by simpa using hu) hth
        · rw [hrows] at hrow
          obtain ⟨p, -, rfl⟩ := List.mem_map.mp hrow
          rw [mkDBTransaction_id]
          exact hid p.1
    have hlen2 : (markDuplicates (db0 ++ rows) userId txs).length = txs.length := by
      rw [markDuplicates_eq, List.length_map]
    unfold reuploadStep2
    rw [htrans1]
    have hfind2 : getBankStatementById
        (sampleStatement "s2" userId (sampleData (markDuplicates (db0 ++ rows) userId txs)) ::
          (reuploadStep1 dateVal freshDbId db0 userId txs).1.statements)
        "s2" userId =
        some (sampleStatement "s2" userId
          (sampleData (markDuplicates (db0 ++ rows) userId txs))) := by
      unfold getBankStatementById
      rw [List.find?_cons_of_pos _ (by simp [sampleStatement])]
    rw [import_dup_batch dateVal freshDbId (db0 ++ rows) _ userId "s2"
      (markDuplicates (db0 ++ rows) userId txs)
      (fun t ht => (hmarked2 t ht).1) (fun t ht => (hmarked2 t ht).2) hfind2]
    rw [hlen2]

theorem reupload_idempotent_witness :
    (∃ ids, (reuploadStep1 (fun _ => 0) (fun _ => "x") [] "u" [sampleTx]).2 =
      .ok ⟨[sampleTx].length, 0, ids⟩) ∧
    (∀ t ∈ [sampleTx],
      ∃ r ∈ (reuploadStep1 (fun _ => 0) (fun _ => "x") [] "u" [sampleTx]).1.transactions,
        r.transactionHash = some t.hash) ∧
    reuploadStep2 (fun _ => 0) (fun _ => "x") [] "u" [sampleTx] =
      .ok ⟨0, [sampleTx].length, []⟩ :=
  reupload_idempotent (fun _ => 0) (fun _ => "x") [] "u" [sampleTx]
    (by decide)
    (by decide)
    (by decide)
    (fun _ => (by decide : ("x" : String) ≠ ""))
    (fun t _ r hr => absurd hr (List.not_mem_nil r))

def csvWitnessTx : ExtractedTransaction :=
  { id := "x", date := "2024-01-13", description := "Coffee", amount := some 450,
    type := .debit, currency := "EUR", confidence := 1,
    rawLine := some "2024-01-13,Coffee,-4.50", edited := false, selected := true,
    hash := "2024-01-13|450|coffee", isDuplicate := false, duplicateOf := none }

def csvWitnessData : ExtractedData :=
  { transactions := [csvWitnessTx],
    summary := calculateSummary [csvWitnessTx],
    parsingMetadata := { format := "csv", detectedDelimiter := some ",",
                         detectedDateFormat := none,
                         columnMapping := some ⟨.byIdx 0, .byIdx 1, .byIdx 2, none, none⟩ } }

def pdfWitnessTx : ExtractedTransaction :=
  { id := "y", date := "2024-02-01", description := "Rent", amount := some 10000,
    type := .debit, currency := "EUR", confidence := 9 / 10,
    rawLine := none, edited := false, selected := true,
    hash := "2024-02-01|10000|rent", isDuplicate := false, duplicateOf := none }

def pdfWitnessData : ExtractedData :=
  { transactions := [pdfWitnessTx],
    summary := calculateSummary [pdfWitnessTx],
    parsingMetadata := { format := "pdf", detectedDelimiter := none,
                         detectedDateFormat := some "YYYY-MM-DD", columnMapping := none } }

theorem parsePDFWitnessEval :
    parsePDF (fun _ => "y") (fun s => s) 1
      (.ok ⟨none, none, none, [⟨"2024-02-01", "Rent", 100, .debit⟩]⟩) "EUR" =
      .ok pdfWitnessData := by
  have hj : jsRound ((100 : ℚ) * 100) = 10000 := by
    rw [jsRound, Int.floor_eq_iff]
    · constructor <;> norm_num
  simp only [parsePDF]
  rw [if_neg (by decide : ¬(1 = 0))]
  rw [if_neg (by simp)]
  dsimp only [List.enum, List.enumFrom, List.map]
  rw [hj]
  rfl

theorem hash_pure_and_shared_witness :
    generateTransactionHash (fun s => s) "2024-01-13" (some 450) "Coffee  SHOP" =
      generateTransactionHash (fun s => s) "2024-01-13" (some 450) " coffee shop " ∧
    csvWitnessTx.hash = generateTransactionHash (fun s => s) csvWitnessTx.date
      csvWitnessTx.amount csvWitnessTx.description ∧
    pdfWitnessTx.hash = generateTransactionHash (fun s => s) pdfWitnessTx.date
      pdfWitnessTx.amount pdfWitnessTx.description :=
  ⟨hash_pure_and_shared_across_pipelines.1 (fun s => s) "2024-01-13" (some 450)
     "Coffee  SHOP" " coffee shop " (by decide),
   hash_pure_and_shared_across_pipelines.2.2.1 (fun _ => "x") (fun s => s) (fun _ => none)
     [["Date", "Description", "Amount"], ["2024-01-13", "Coffee", "-4.50"]] ',' none "EUR"
     csvWitnessData rfl csvWitnessTx (List.mem_singleton_self _),
   hash_pure_and_shared_across_pipelines.2.2.2 (fun _ => "y") (fun s => s) 1
     (.ok ⟨none, none, none, [⟨"2024-02-01", "Rent", 100, .debit⟩]⟩) "EUR"
     pdfWitnessData parsePDFWitnessEval pdfWitnessTx (List.mem_singleton_self _)⟩

end TaxHacker
